import Mathlib

/-!
Verification of the multi-agent motion-coordination engine of the
Revenge-of-The-Fallen repository: a shallow embedding of the adversarial
pathfinders (`app/algorithms/minimax.py`, `app/algorithms/expectimax.py`)
and of the orchestration fragments of `app/controllers/simulation.py`
that the claims refer to, together with proofs about them.

Coordinates are integers; grid cells are `empty`, `wall` or
`occupied id`.  Machine floats of the Python code are modelled by exact
rationals (`ℚ`), with `±inf` sentinels modelled by the dedicated type
`XVal`.  Fallible Python code (a branch that raises) is modelled with
`Option`.
-/

namespace RotF

/-- Modelled from the spec: `Cell` of §3 — the GridWorld cell states of
`app/models/grid.py`, which is not part of the provided sources.
One of Empty, Wall, Occupied(agent id). -/
inductive Cell where
  | empty : Cell
  | wall : Cell
  | occupied (id : Nat) : Cell
deriving DecidableEq, Repr

/-- Modelled from the spec: `Element` of §3 (`app/controllers/element_controller.py`
is not part of the provided sources): id, position, optional target. -/
structure Element where
  id : Nat
  x : Int
  y : Int
  target : Option (Int × Int)
deriving DecidableEq, Repr

/-- `element.has_target()` -/
def Element.hasTarget (e : Element) : Bool := e.target.isSome

/-- `element.target_x` (meaningful only when the element has a target). -/
def Element.targetX (e : Element) : Int := (e.target.getD (0, 0)).1

/-- `element.target_y` (meaningful only when the element has a target). -/
def Element.targetY (e : Element) : Int := (e.target.getD (0, 0)).2

/-- `element.distance_to_target()`: Manhattan distance to the target. -/
def Element.distanceToTarget (e : Element) : Int :=
  |e.x - e.targetX| + |e.y - e.targetY|

/-- The combined mutable state the search code touches: the GridWorld
cell array (row-major: `cells[y][x]`) and the element registry
(`controller.elements`, a dict id → element modelled as a list in
insertion order). -/
structure SimState where
  width : Int
  height : Int
  cells : List (List Cell)
  elements : List Element
deriving DecidableEq, Repr

/-- Read a cell; out-of-range reads give `wall` (the search code only
reads in-bounds cells). -/
def cellAt (cs : List (List Cell)) (x y : Int) : Cell :=
  if 0 ≤ x ∧ 0 ≤ y then ((cs[y.toNat]?.getD [])[x.toNat]?).getD Cell.wall
  else Cell.wall

/-- Write a cell; out-of-range writes are no-ops. -/
def setCell (cs : List (List Cell)) (x y : Int) (c : Cell) : List (List Cell) :=
  if 0 ≤ x ∧ 0 ≤ y then cs.set y.toNat ((cs[y.toNat]?.getD []).set x.toNat c)
  else cs

/-- Modelled from the spec: `grid.is_valid_position(x, y)` (§4.1 `is_valid`). -/
def SimState.isValidPosition (s : SimState) (x y : Int) : Bool :=
  0 ≤ x && x < s.width && 0 ≤ y && y < s.height

/-- Modelled from the spec: `grid.is_wall(x, y)`. -/
def SimState.isWall (s : SimState) (x y : Int) : Bool :=
  cellAt s.cells x y = Cell.wall

/-- Modelled from the spec: `grid.is_element(x, y)` (§4.1 `is_occupied`). -/
def SimState.isElement (s : SimState) (x y : Int) : Bool :=
  match cellAt s.cells x y with
  | Cell.occupied _ => true
  | _ => false

/-- Topology of §3: von Neumann (4-neighborhood) or Moore (8-neighborhood). -/
inductive Topology where
  | vonNeumann : Topology
  | moore : Topology
deriving DecidableEq, Repr

/-- Modelled from the spec: `grid.get_neighbors(x, y, topology)` (§4.1
`neighbors`): the in-bounds neighbor cells of `(x, y)` for the topology. -/
def SimState.getNeighbors (s : SimState) (x y : Int) (topo : Topology) :
    List (Int × Int) :=
  let deltas : List (Int × Int) :=
    match topo with
    | Topology.vonNeumann => [(0, -1), (-1, 0), (1, 0), (0, 1)]
    | Topology.moore =>
        [(-1, -1), (0, -1), (1, -1), (-1, 0), (1, 0), (-1, 1), (0, 1), (1, 1)]
  (deltas.map (fun d => (x + d.1, y + d.2))).filter
    (fun p => s.isValidPosition p.1 p.2)

/-- `controller.elements.get(element_id)` / `controller.elements[element_id]`. -/
def lookupElement (s : SimState) (eid : Nat) : Option Element :=
  s.elements.find? (fun e => e.id = eid)

/-- Modelled from the spec: `grid.remove_element(element)` clears the cell
at the element's current position. -/
def removeElementAt (s : SimState) (x y : Int) : SimState :=
  { s with cells := setCell s.cells x y Cell.empty }

/-- Modelled from the spec: `grid.add_element(element)` marks the cell at
the element's current position as occupied by it. -/
def addElementAt (s : SimState) (x y : Int) (eid : Nat) : SimState :=
  { s with cells := setCell s.cells x y (Cell.occupied eid) }

/-- Position update of one registry entry. -/
def updPos (eid : Nat) (nx ny : Int) (e : Element) : Element :=
  if e.id = eid then { e with x := nx, y := ny } else e

/-- Update the registry entry of element `eid` to position `(nx, ny)`
(the Python `element.x, element.y = nx, ny` on the shared object). -/
def setElemPos (s : SimState) (eid : Nat) (nx ny : Int) : SimState :=
  { s with elements := s.elements.map (updPos eid nx ny) }

/-- The mutate-and-reindex step the search code performs on the shared
state: `grid.remove_element(element); element.x, element.y = nx, ny;
grid.add_element(element)`. -/
def simMove (s : SimState) (eid : Nat) (nx ny : Int) : SimState :=
  match lookupElement s eid with
  | none => s
  | some el => addElementAt (setElemPos (removeElementAt s el.x el.y) eid nx ny) nx ny eid

/-- Well-formedness of a state: element ids are pairwise distinct and
invariant I1 of the spec holds — every element occupies exactly its own
grid cell. -/
def WF (s : SimState) : Prop :=
  s.elements.Pairwise (fun a b => a.id ≠ b.id) ∧
  ∀ e ∈ s.elements, cellAt s.cells e.x e.y = Cell.occupied e.id

instance (s : SimState) : Decidable (WF s) := by
  unfold WF; infer_instance

/-! ### Cell-array algebra -/

/-- Both indices of the cell are readable. -/
def InRange (cs : List (List Cell)) (x y : Int) : Prop :=
  0 ≤ x ∧ 0 ≤ y ∧ y.toNat < cs.length ∧ x.toNat < (cs[y.toNat]?.getD []).length

theorem set_of_getElem? {α : Type} {l : List α} {i : Nat} {a : α}
    (h : l[i]? = some a) : l.set i a = l := by
  induction l generalizing i with
  | nil => simp at h
  | cons hd tl ih =>
    cases i with
    | zero =>
      simp only [List.getElem?_cons_zero, Option.some.injEq] at h
      simp [List.set, h]
    | succ n =>
      simp only [List.getElem?_cons_succ] at h
      simp [List.set, ih h]

theorem inRange_of_cellAt_ne_wall {cs : List (List Cell)} {x y : Int}
    (h : cellAt cs x y ≠ Cell.wall) : InRange cs x y := by
  unfold cellAt at h
  by_cases hxy : 0 ≤ x ∧ 0 ≤ y
  · simp only [if_pos hxy] at h
    refine ⟨hxy.1, hxy.2, ?_, ?_⟩
    · by_contra hlen
      push_neg at hlen
      have hnone : cs[y.toNat]? = none := List.getElem?_eq_none (by omega)
      rw [hnone] at h
      simp at h
    · by_contra hlen
      push_neg at hlen
      have hnone : (cs[y.toNat]?.getD [])[x.toNat]? = none := List.getElem?_eq_none (by omega)
      rw [hnone] at h
      simp at h
  · simp [if_neg hxy] at h

theorem cellAt_setCell_self {cs : List (List Cell)} {x y : Int} (c : Cell)
    (h : InRange cs x y) : cellAt (setCell cs x y c) x y = c := by
  obtain ⟨hx, hy, hyl, hxl⟩ := h
  unfold cellAt setCell
  rw [if_pos ⟨hx, hy⟩, if_pos ⟨hx, hy⟩]
  rw [List.getElem?_set_self (by simpa using hyl)]
  rw [Option.getD_some, List.getElem?_set_self (by simpa using hxl), Option.getD_some]

theorem cellAt_setCell_ne {cs : List (List Cell)} {x y x2 y2 : Int} (c : Cell)
    (h : (x, y) ≠ (x2, y2)) : cellAt (setCell cs x y c) x2 y2 = cellAt cs x2 y2 := by
  unfold cellAt setCell
  by_cases hw : 0 ≤ x ∧ 0 ≤ y
  · by_cases hr : 0 ≤ x2 ∧ 0 ≤ y2
    · rw [if_pos hw, if_pos hr, if_pos hr]
      by_cases hyy : y.toNat = y2.toNat
      · have hy2 : y = y2 := by omega
        have hxx : x.toNat ≠ x2.toNat := by
          intro hc
          exact h (by simp only [Prod.mk.injEq]; omega)
        subst hy2
        by_cases hyl : y.toNat < cs.length
        · rw [List.getElem?_set_self (by simpa using hyl)]
          simp only [Option.getD_some]
          rw [List.getElem?_set_ne hxx]
        · rw [List.set_eq_of_length_le (by omega)]
      · rw [List.getElem?_set_ne hyy]
    · rw [if_pos hw, if_neg hr, if_neg hr]
  · rw [if_neg hw]

theorem setCell_setCell_same {cs : List (List Cell)} {x y : Int} (c c2 : Cell) :
    setCell (setCell cs x y c) x y c2 = setCell cs x y c2 := by
  unfold setCell
  by_cases hw : 0 ≤ x ∧ 0 ≤ y
  · rw [if_pos hw, if_pos hw, if_pos hw]
    by_cases hyl : y.toNat < cs.length
    · rw [List.getElem?_set_self (by simpa using hyl)]
      simp only [Option.getD_some]
      rw [List.set_set, List.set_set]
    · have hle : cs.length ≤ y.toNat := by omega
      repeat rw [List.set_eq_of_length_le hle]
  · rw [if_neg hw, if_neg hw, if_neg hw]

theorem setCell_comm {cs : List (List Cell)} {x1 y1 x2 y2 : Int} (c1 c2 : Cell)
    (h : (x1, y1) ≠ (x2, y2)) :
    setCell (setCell cs x1 y1 c1) x2 y2 c2 = setCell (setCell cs x2 y2 c2) x1 y1 c1 := by
  unfold setCell
  by_cases h1 : 0 ≤ x1 ∧ 0 ≤ y1
  · by_cases h2 : 0 ≤ x2 ∧ 0 ≤ y2
    · simp only [if_pos h1, if_pos h2]
      by_cases hyy : y1.toNat = y2.toNat
      · have hy12 : y1 = y2 := by omega
        have hxx : x1.toNat ≠ x2.toNat := by
          intro hc
          exact h (by simp only [Prod.mk.injEq]; omega)
        subst hy12
        by_cases hyl : y1.toNat < cs.length
        · rw [List.getElem?_set_self (by simpa using hyl),
            List.getElem?_set_self (by simpa using hyl)]
          simp only [Option.getD_some]
          rw [List.set_set, List.set_set, List.set_comm _ _ _ hxx]
        · have hle : cs.length ≤ y1.toNat := by omega
          repeat rw [List.set_eq_of_length_le hle]
      · rw [List.getElem?_set_ne hyy, List.getElem?_set_ne (Ne.symm hyy),
          List.set_comm _ _ _ hyy]
    · simp only [if_pos h1, if_neg h2]
  · by_cases h2 : 0 ≤ x2 ∧ 0 ≤ y2
    · simp only [if_neg h1, if_pos h2]
    · simp only [if_neg h1, if_neg h2]

theorem setCell_self {cs : List (List Cell)} {x y : Int} {c : Cell}
    (h : cellAt cs x y = c) : setCell cs x y c = cs := by
  unfold cellAt at h
  unfold setCell
  by_cases hw : 0 ≤ x ∧ 0 ≤ y
  · rw [if_pos hw]
    rw [if_pos hw] at h
    by_cases hyl : y.toNat < cs.length
    · by_cases hxl : x.toNat < (cs[y.toNat]?.getD []).length
      · rw [List.getElem?_eq_getElem (by simpa using hxl)] at h
        simp only [Option.getD_some] at h
        have hrow : (cs[y.toNat]?.getD []).set x.toNat c = cs[y.toNat]?.getD [] := by
          apply set_of_getElem?
          rw [List.getElem?_eq_getElem (by simpa using hxl), h]
        rw [hrow]
        apply set_of_getElem?
        rw [List.getElem?_eq_getElem (by simpa using hyl)]
        simp
      · have hrow : (cs[y.toNat]?.getD []).set x.toNat c = cs[y.toNat]?.getD [] :=
          List.set_eq_of_length_le (le_of_not_lt (by simpa using hxl))
        rw [hrow]
        apply set_of_getElem?
        rw [List.getElem?_eq_getElem (by simpa using hyl)]
        simp
    · exact List.set_eq_of_length_le (le_of_not_lt (by simpa using hyl))
  · rw [if_neg hw]

theorem inRange_setCell {cs : List (List Cell)} {x2 y2 : Int} {c : Cell} {x y : Int}
    (h : InRange cs x y) : InRange (setCell cs x2 y2 c) x y := by
  obtain ⟨hx, hy, hyl, hxl⟩ := h
  unfold setCell
  by_cases hw : 0 ≤ x2 ∧ 0 ≤ y2
  · rw [if_pos hw]
    refine ⟨hx, hy, by simpa using hyl, ?_⟩
    by_cases hyy : y2.toNat = y.toNat
    · rw [hyy]
      by_cases h2l : y.toNat < cs.length
      · rw [List.getElem?_set_self (by simpa using h2l)]
        simpa using hxl
      · rw [List.set_eq_of_length_le (le_of_not_lt (by simpa using h2l))]
        exact hxl
    · rw [List.getElem?_set_ne hyy]
      exact hxl
  · rw [if_neg hw]
    exact ⟨hx, hy, hyl, hxl⟩

/-! ### Registry algebra -/

theorem updPos_id (eid : Nat) (nx ny : Int) (e : Element) : (updPos eid nx ny e).id = e.id := by
  unfold updPos
  split <;> rfl

theorem updPos_updPos (eid : Nat) (a b nx ny : Int) (e : Element) :
    updPos eid a b (updPos eid nx ny e) = updPos eid a b e := by
  unfold updPos
  by_cases h : e.id = eid <;> simp [h]

theorem lookupElement_some {s : SimState} {eid : Nat} {el : Element}
    (h : lookupElement s eid = some el) : el.id = eid ∧ el ∈ s.elements := by
  unfold lookupElement at h
  refine ⟨by simpa using List.find?_some h, List.mem_of_find?_eq_some h⟩

theorem mem_id_unique {l : List Element} (hnd : l.Pairwise (fun a b => a.id ≠ b.id))
    {eid : Nat} {el e : Element} (hfind : l.find? (fun e2 => e2.id = eid) = some el)
    (he : e ∈ l) (hid : e.id = eid) : e = el := by
  have hmem : el ∈ l := List.mem_of_find?_eq_some hfind
  have hel : el.id = eid := by simpa using List.find?_some hfind
  by_contra hne
  have hsym : Symmetric (fun a b : Element => a.id ≠ b.id) := fun a b h => h.symm
  have := List.Pairwise.forall hsym hnd he hmem hne
  exact this (hid.trans hel.symm)

theorem lookupElement_setElemPos (s : SimState) (eid2 : Nat) (nx ny : Int) (eid : Nat) :
    lookupElement (setElemPos s eid2 nx ny) eid =
      (lookupElement s eid).map (updPos eid2 nx ny) := by
  unfold lookupElement setElemPos
  simp only [List.find?_map]
  have hp : ((fun e : Element => decide (e.id = eid)) ∘ updPos eid2 nx ny) =
      (fun e : Element => decide (e.id = eid)) := by
    funext e
    simp [Function.comp, updPos_id]
  rw [hp]

theorem cellAt_of_WF {s : SimState} (hwf : WF s) {eid : Nat} {el : Element}
    (h : lookupElement s eid = some el) :
    cellAt s.cells el.x el.y = Cell.occupied eid := by
  obtain ⟨hid, hmem⟩ := lookupElement_some h
  rw [hwf.2 el hmem, hid]

/-- The two cell writes and the registry write of one `simMove`, explicitly. -/
theorem simMove_eq {s : SimState} {eid : Nat} {el : Element} {nx ny : Int}
    (h : lookupElement s eid = some el) :
    simMove s eid nx ny =
      { s with
        cells := setCell (setCell s.cells el.x el.y Cell.empty) nx ny (Cell.occupied eid),
        elements := s.elements.map (updPos eid nx ny) } := by
  unfold simMove
  rw [h]
  rfl

theorem lookupElement_simMove (s : SimState) (eid2 : Nat) (nx ny : Int) (eid : Nat) :
    lookupElement (simMove s eid2 nx ny) eid =
      (lookupElement s eid).map (updPos eid2 nx ny) := by
  unfold simMove
  cases hl : lookupElement s eid2 with
  | none =>
    cases hl2 : lookupElement s eid with
    | none => simp
    | some el =>
      obtain ⟨hid, hmem⟩ := lookupElement_some hl2
      have hne : el.id ≠ eid2 := by
        intro hc
        unfold lookupElement at hl
        rw [List.find?_eq_none] at hl
        exact hl el hmem (by simpa using hc)
      simp [hl2, updPos, hne]
  | some el2 =>
    show lookupElement (addElementAt (setElemPos _ eid2 nx ny) nx ny eid2) eid = _
    unfold addElementAt removeElementAt
    rw [show ∀ (t : SimState) (c : Cell) (x y : Int),
        lookupElement { t with cells := setCell t.cells x y c } eid = lookupElement t eid
      from fun _ _ _ _ => rfl]
    exact lookupElement_setElemPos _ eid2 nx ny eid

theorem WF_simMove {s : SimState} {eid : Nat} {el : Element} {nx ny : Int}
    (hwf : WF s) (hfind : lookupElement s eid = some el)
    (hfree : cellAt s.cells nx ny = Cell.empty) :
    WF (simMove s eid nx ny) := by
  obtain ⟨hid, hmem⟩ := lookupElement_some hfind
  rw [simMove_eq hfind]
  constructor
  · rw [List.pairwise_map]
    exact hwf.1.imp (by intro a b hab; simpa [updPos_id] using hab)
  · intro e2 hmem2
    rw [List.mem_map] at hmem2
    obtain ⟨e, hmem_e, rfl⟩ := hmem2
    have hocc : cellAt s.cells e.x e.y = Cell.occupied e.id := hwf.2 e hmem_e
    by_cases hcase : e.id = eid
    · have heq : e = el := mem_id_unique hwf.1 hfind hmem_e hcase
      subst heq
      simp only [updPos, if_pos hcase]
      show cellAt (setCell (setCell s.cells e.x e.y Cell.empty) nx ny (Cell.occupied eid)) nx ny
        = Cell.occupied e.id
      have hnw : cellAt s.cells nx ny ≠ Cell.wall := by rw [hfree]; simp
      rw [cellAt_setCell_self _ (inRange_setCell (inRange_of_cellAt_ne_wall hnw)), hcase]
    · simp only [updPos, if_neg hcase]
      have hne1 : (e.x, e.y) ≠ (nx, ny) := by
        intro hc
        rw [Prod.mk.injEq] at hc
        rw [hc.1, hc.2, hfree] at hocc
        cases hocc
      have hne2 : (e.x, e.y) ≠ (el.x, el.y) := by
        intro hc
        rw [Prod.mk.injEq] at hc
        have hocc2 : cellAt s.cells el.x el.y = Cell.occupied eid := cellAt_of_WF hwf hfind
        rw [hc.1, hc.2, hocc2] at hocc
        exact hcase (Cell.occupied.inj hocc).symm
      show cellAt (setCell (setCell s.cells el.x el.y Cell.empty) nx ny (Cell.occupied eid)) e.x e.y
        = Cell.occupied e.id
      rw [cellAt_setCell_ne _ (Ne.symm hne1), cellAt_setCell_ne _ (Ne.symm hne2)]
      exact hocc

theorem simMove_restore {s : SimState} {eid : Nat} {el : Element} {nx ny : Int}
    (hwf : WF s) (hfind : lookupElement s eid = some el)
    (hfree : cellAt s.cells nx ny = Cell.empty) :
    simMove (simMove s eid nx ny) eid el.x el.y = s := by
  have hocc : cellAt s.cells el.x el.y = Cell.occupied eid := cellAt_of_WF hwf hfind
  have hne : (nx, ny) ≠ (el.x, el.y) := by
    intro hc
    rw [Prod.mk.injEq] at hc
    rw [hc.1, hc.2, hocc] at hfree
    cases hfree
  have hfind2 : lookupElement (simMove s eid nx ny) eid = some { el with x := nx, y := ny } := by
    rw [lookupElement_simMove, hfind]
    obtain ⟨hid, _⟩ := lookupElement_some hfind
    simp [updPos, hid]
  rw [simMove_eq hfind2, simMove_eq hfind]
  have hcells :
      setCell (setCell (setCell (setCell s.cells el.x el.y Cell.empty) nx ny (Cell.occupied eid))
          nx ny Cell.empty) el.x el.y (Cell.occupied eid) = s.cells := by
    rw [setCell_setCell_same]
    rw [setCell_comm _ _ hne]
    rw [setCell_setCell_same, setCell_self hocc, setCell_self hfree]
  have helems : (s.elements.map (updPos eid nx ny)).map (updPos eid el.x el.y) = s.elements := by
    rw [List.map_map]
    have hcomp : ∀ e ∈ s.elements, (updPos eid el.x el.y ∘ updPos eid nx ny) e = e := by
      intro e hmem_e
      show updPos eid el.x el.y (updPos eid nx ny e) = e
      rw [updPos_updPos]
      by_cases hcase : e.id = eid
      · have heq : e = el := mem_id_unique hwf.1 hfind hmem_e hcase
        subst heq
        unfold updPos
        rw [if_pos hcase]
      · unfold updPos
        rw [if_neg hcase]
    calc s.elements.map (updPos eid el.x el.y ∘ updPos eid nx ny)
        = s.elements.map id := List.map_congr_left hcomp
      _ = s.elements := List.map_id s.elements
  show ({ s with
      cells := setCell
        (setCell (setCell (setCell s.cells el.x el.y Cell.empty) nx ny (Cell.occupied eid))
          nx ny Cell.empty) el.x el.y (Cell.occupied eid),
      elements := (s.elements.map (updPos eid nx ny)).map (updPos eid el.x el.y) } : SimState) = s
  rw [hcells, helems]

/-! ### Extended values

Python floats with `float('-inf')` / `float('inf')` sentinels; finite
values are exact rationals. -/

inductive XVal where
  | negInf : XVal
  | fin (q : ℚ) : XVal
  | posInf : XVal
deriving DecidableEq, Repr

/-- `a <= b` on extended values. -/
def XVal.le : XVal → XVal → Bool
  | XVal.negInf, _ => true
  | _, XVal.posInf => true
  | XVal.fin a, XVal.fin b => a ≤ b
  | _, _ => false

/-- `a < b` (strict). -/
def XVal.lt (a b : XVal) : Bool := XVal.le a b && !(XVal.le b a)

/-- Python `max(a, b)` (first argument on ties). -/
def XVal.maxv (a b : XVal) : XVal := if XVal.le b a then a else b

/-- Python `min(a, b)` (first argument on ties). -/
def XVal.minv (a b : XVal) : XVal := if XVal.le a b then a else b

/-- Adding a finite constant; infinities absorb. -/
def XVal.add : XVal → ℚ → XVal
  | XVal.fin a, q => XVal.fin (a + q)
  | x, _ => x

/-! ### Minimax (`app/algorithms/minimax.py`) -/

/-- The default element returned for a registry miss; every use is guarded
by a well-formedness hypothesis that rules the miss out. -/
def dummyElement (eid : Nat) : Element := { id := eid, x := 0, y := 0, target := none }

/-- `evaluate_state` of `minimax.py` (all-integer arithmetic). -/
def evaluateState (s : SimState) (el : Element) (gx gy : Int) (advs : List Nat)
    (brp : Bool) : Int :=
  let distance := |el.x - gx| + |el.y - gy|
  let distanceScore0 : Int := -10 * distance
  let distanceScore : Int :=
    if brp then
      let base := -5 * distance + (el.y - gy) * 20
      if el.y ≥ 9 then base - 100 else base
    else distanceScore0
  let dxSign : Int := if gx > el.x then 1 else if gx < el.x then -1 else 0
  let dySign : Int := if gy > el.y then 1 else if gy < el.y then -1 else 0
  let xs := (List.range (gx - el.x).natAbs).map (fun i => el.x + dxSign * ((i : Int) + 1))
  let ys := (List.range (gy - el.y).natAbs).map (fun i => el.y + dySign * ((i : Int) + 1))
  let px : Int :=
    if dxSign ≠ 0 ∧ xs.any (fun x => s.isWall x el.y || s.isElement x el.y) then -15 else 0
  let py : Int :=
    if dySign ≠ 0 ∧ ys.any (fun y => s.isWall el.x y || s.isElement el.x y) then
      if brp ∧ dySign < 0 then -45 else -15
    else 0
  let pathPenalty := px + py
  let neighbors := s.getNeighbors el.x el.y Topology.vonNeumann
  let freeNeighbors :=
    (neighbors.filter (fun p => !s.isWall p.1 p.2 && !s.isElement p.1 p.2)).length
  let mobilityScore : Int := 5 * freeNeighbors
  let upwardPathScore : Int :=
    if brp ∧ neighbors.any (fun p => p.2 < el.y && !s.isWall p.1 p.2 && !s.isElement p.1 p.2)
    then 50 else 0
  let adversaryPenalty : Int :=
    advs.foldl (fun acc advId =>
      match lookupElement s advId with
      | none => acc
      | some adv =>
          let d := |el.x - adv.x| + |el.y - adv.y|
          if d ≤ 2 then acc - (3 - d) * 10 else acc) 0
  if brp then distanceScore + pathPenalty + mobilityScore + upwardPathScore + adversaryPenalty
  else distanceScore + pathPenalty + mobilityScore + adversaryPenalty

/-- `calculate_threat_level` of `minimax.py`. -/
def calculateThreatLevel (osx osy ogx ogy tsx tsy tgx tgy : Int) (brp : Bool) : Int :=
  let dStart := |tsx - osx| + |tsy - osy|
  let dGoal := |tsx - ogx| + |tsy - ogy|
  let ourDx := ogx - osx
  let ourDy := ogy - osy
  let theirDx := tgx - tsx
  let theirDy := tgy - tsy
  let cross := ourDx * theirDy - ourDy * theirDx
  let proximityThreat := 20 - min (min dStart dGoal) 20
  let t2 : Int := if brp ∧ tsy < osy ∧ |tsx - osx| ≤ 1 then 50 else 0
  let t3 : Int := if |cross| < 10 then 5 else 15
  let t4 : Int :=
    if min osx ogx ≤ tsx ∧ tsx ≤ max osx ogx ∧ min osy ogy ≤ tsy ∧ tsy ≤ max osy ogy
    then 20 else 0
  proximityThreat + t2 + t3 + t4

/-- `find_potential_adversaries` of `minimax.py`. -/
def findPotentialAdversaries (s : SimState) (eid : Nat) (sx sy gx gy : Int)
    (brp : Bool) : List Nat :=
  let minX := min sx gx - 2
  let maxX := max sx gx + 2
  let minY := if brp then min (sy - 3) gy else min sy gy - 2
  let maxY := if brp then min (sy + 1) (gy + 1) else max sy gy + 2
  let scored := s.elements.foldl (fun acc other =>
    if other.id = eid then acc
    else if minX ≤ other.x ∧ other.x ≤ maxX ∧ minY ≤ other.y ∧ other.y ≤ maxY then
      if other.hasTarget ∧ (other.x ≠ other.targetX ∨ other.y ≠ other.targetY) then
        if brp ∧ other.y < sy ∧ |other.x - sx| ≤ 1 then acc ++ [(other.id, (100 : Int))]
        else
          let otherMinX := min other.x other.targetX
          let otherMaxX := max other.x other.targetX
          let otherMinY := min other.y other.targetY
          let otherMaxY := max other.y other.targetY
          if (minX ≤ otherMaxX ∧ maxX ≥ otherMinX) ∧ (minY ≤ otherMaxY ∧ maxY ≥ otherMinY) then
            acc ++ [(other.id,
              calculateThreatLevel sx sy gx gy other.x other.y other.targetX other.targetY brp)]
          else acc
      else acc
    else acc) []
  if scored.isEmpty then []
  else
    let sorted := scored.mergeSort (fun a b => decide (b.2 ≤ a.2))
    ((sorted.take (if brp then 3 else 2)).map (fun p => p.1))

/-- The MAX-node move loop of `minimax_value` with alpha-beta cutoff;
`step` is the recursive evaluation at the next depth. -/
def mmMaxLoop (step : SimState → XVal → XVal → XVal × SimState) (eid : Nat)
    (moves : List (Int × Int)) (s : SimState) (value alpha beta : XVal) :
    XVal × SimState :=
  match moves with
  | [] => (value, s)
  | (nx, ny) :: rest =>
    let el := (lookupElement s eid).getD (dummyElement eid)
    let s1 := simMove s eid nx ny
    let r := step s1 alpha beta
    let s3 := simMove r.2 eid el.x el.y
    let value1 := XVal.maxv value r.1
    let alpha1 := XVal.maxv alpha value1
    if XVal.le beta alpha1 then (value1, s3)
    else mmMaxLoop step eid rest s3 value1 alpha1 beta

/-- The MIN-node move loop of `minimax_value` (one adversary) with the
stay-in-place shortcut and the alpha cutoff. -/
def mmMinLoop (step : SimState → XVal → XVal → XVal × SimState) (advId : Nat)
    (moves : List (Int × Int)) (s : SimState) (value alpha beta : XVal) :
    XVal × SimState :=
  match moves with
  | [] => (value, s)
  | (nx, ny) :: rest =>
    let adv := (lookupElement s advId).getD (dummyElement advId)
    if nx = adv.x ∧ ny = adv.y then
      let r := step s alpha beta
      let value1 := XVal.minv value r.1
      let beta1 := XVal.minv beta value1
      if XVal.le beta1 alpha then (value1, r.2)
      else mmMinLoop step advId rest r.2 value1 alpha beta1
    else
      let s1 := simMove s advId nx ny
      let r := step s1 alpha beta
      let s3 := simMove r.2 advId adv.x adv.y
      let value1 := XVal.minv value r.1
      let beta1 := XVal.minv beta value1
      if XVal.le beta1 alpha then (value1, s3)
      else mmMinLoop step advId rest s3 value1 alpha beta1

/-- `minimax_value` of `minimax.py`.  `fuel` is `max_depth - depth` of the
Python call (every recursive call passes `depth + 1`), so the Python
terminal test `depth >= max_depth` is `fuel = 0`.  The pair returned is
(value, state after the call) — the Python function mutates the shared
grid/registry in place, so the shallow embedding threads the state
through every mutation and restoration the code performs. -/
def minimaxValue (s : SimState) (eid : Nat) (advs : List Nat) (fuel : Nat)
    (isMax : Bool) (alpha beta : XVal) (topo : Topology) (gx gy : Int)
    (brp : Bool) : XVal × SimState :=
  let el := (lookupElement s eid).getD (dummyElement eid)
  match fuel with
  | 0 => (XVal.fin (evaluateState s el gx gy advs brp), s)
  | Nat.succ fuel2 =>
    if el.x = gx ∧ el.y = gy then (XVal.fin 1000, s)
    else if isMax then
      let neighbors := s.getNeighbors el.x el.y topo
      let valid0 := neighbors.filter (fun p => !s.isWall p.1 p.2 && !s.isElement p.1 p.2)
      let valid :=
        if brp ∧ ¬valid0.isEmpty then
          let ups := valid0.filter (fun p => p.2 < el.y)
          if ¬ups.isEmpty then ups else valid0
        else valid0
      if valid.isEmpty then (XVal.fin (evaluateState s el gx gy advs brp - 20), s)
      else
        mmMaxLoop (fun s2 a b => minimaxValue s2 eid advs fuel2 false a b topo gx gy brp)
          eid valid s XVal.negInf alpha beta
    else
      match advs with
      | [] => minimaxValue s eid [] fuel2 true alpha beta topo gx gy brp
      | advId :: rest =>
        match lookupElement s advId with
        | none => (XVal.posInf, s)
        | some adv =>
          let neighbors := s.getNeighbors adv.x adv.y topo
          let valid0 := neighbors.filter (fun p =>
            !s.isWall p.1 p.2 && !(p.1 = el.x && p.2 = el.y) && !s.isElement p.1 p.2)
          let valid1 := valid0 ++ [(adv.x, adv.y)]
          let valid :=
            if adv.y ≥ 9 ∧ brp then valid1 ++ [(adv.x, adv.y), (adv.x, adv.y), (adv.x, adv.y)]
            else valid1
          if valid.isEmpty then
            minimaxValue s eid rest fuel2 true alpha beta topo gx gy brp
          else
            mmMinLoop (fun s2 a b => minimaxValue s2 eid rest fuel2 true a b topo gx gy brp)
              advId valid s XVal.posInf alpha beta

/-- Oracle for the two draws `random.random() < 0.3` (`coin`) and
`random.choice(moves)` (`choose`) a single pathfind call can make. -/
structure Rng where
  coin : Bool
  choose : List (Int × Int) → Int × Int

/-- Signature of `astar_pathfind` from `app/algorithms/astar.py` (not among
the provided sources; both adversarial pathfinders call it only for the
tail of the path, so it is kept abstract as a function argument). -/
abbrev AStarFn :=
  SimState → Int → Int → Int → Int → Topology → Option (List (Int × Int)) × Nat

/-- The root loop of `minimax_pathfind`: evaluate every legal first move
with `minimax_value` at depth 1, add the +50 upward bonus for bottom-row
agents, and keep the best move (strict improvement only). -/
def mmRootLoop (step : SimState → XVal → XVal → XVal × SimState) (eid : Nat)
    (ox oy sy : Int) (brp : Bool) (moves : List (Int × Int)) (s : SimState)
    (best : Option (Int × Int)) (bestValue alpha beta : XVal) (nodes : Nat) :
    Option (Int × Int) × Nat × SimState :=
  match moves with
  | [] => (best, nodes, s)
  | (nx, ny) :: rest =>
    let s1 := simMove s eid nx ny
    let r := step s1 alpha beta
    let v := if brp ∧ ny < sy then XVal.add r.1 50 else r.1
    let s3 := simMove r.2 eid ox oy
    let bestPair :=
      if XVal.lt bestValue v then (some (nx, ny), v) else (best, bestValue)
    let alpha1 := XVal.maxv alpha bestPair.2
    mmRootLoop step eid ox oy sy brp rest s3 bestPair.1 bestPair.2 alpha1 beta (nodes + 1)

/-- The legal first moves from `(sx, sy)`: in-bounds neighbors that are
neither walls nor occupied. -/
def firstMoves (s : SimState) (sx sy : Int) (topo : Topology) : List (Int × Int) :=
  (s.getNeighbors sx sy topo).filter (fun p => !s.isWall p.1 p.2 && !s.isElement p.1 p.2)

/-- The strictly upward moves among a move list. -/
def upwardMoves (moves : List (Int × Int)) (sy : Int) : List (Int × Int) :=
  moves.filter (fun p => p.2 < sy)

/-- `any(grid.is_element(start_x, y) for y in range(start_y-1, goal_y-1, -1))`. -/
def verticalBlockedCheck (s : SimState) (sx sy gy : Int) : Bool :=
  ((List.range (sy - gy).toNat).map (fun i => sy - 1 - (i : Int))).any
    (fun y => s.isElement sx y)

/-- The depth adjustment of `minimax_pathfind`: subtract 1 (floored at 1)
when more than 10 elements are active. -/
def minimaxAdjustDepth (numElements maxDepth : Nat) : Nat :=
  if numElements > 10 then max 1 (maxDepth - 1) else maxDepth

/-- The A*-tail assembly shared by both pathfinders: remove the element,
run the baseline pathfinder from the chosen first move, re-add the
element, and append the tail (dropping its first cell) when it has more
than one cell. -/
def astarTail (s1 : SimState) (el : Element) (eid : Nat) (sx sy gx gy : Int)
    (best : Int × Int) (nodes : Nat) (topo : Topology) (astar : AStarFn) :
    (Option (List (Int × Int)) × Nat) × SimState :=
  match astar (removeElementAt s1 el.x el.y) best.1 best.2 gx gy topo with
  | (some subPath, subNodes) =>
    if subPath.length > 1 then
      ((some ([(sx, sy), best] ++ subPath.drop 1), nodes + subNodes),
        addElementAt (removeElementAt s1 el.x el.y) el.x el.y eid)
    else ((some [(sx, sy), best], nodes),
      addElementAt (removeElementAt s1 el.x el.y) el.x el.y eid)
  | (none, _) => ((some [(sx, sy), best], nodes),
      addElementAt (removeElementAt s1 el.x el.y) el.x el.y eid)

/-- `minimax_pathfind` of `minimax.py`.  Returns ((path?, nodes explored),
state after the call). -/
def minimaxPathfind (s : SimState) (sx sy gx gy : Int) (eid : Nat) (topo : Topology)
    (maxDepth : Nat) (rng : Rng) (astar : AStarFn) :
    (Option (List (Int × Int)) × Nat) × SimState :=
  if ¬s.isValidPosition sx sy ∨ ¬s.isValidPosition gx gy then ((none, 0), s)
  else if s.isWall sx sy ∨ s.isWall gx gy then ((none, 0), s)
  else if sx = gx ∧ sy = gy then ((some [(sx, sy)], 1), s)
  else
    match lookupElement s eid with
    | none => ((none, 0), s)
    | some el =>
      if decide (el.y ≥ 9) ∧ ¬(firstMoves s sx sy topo).isEmpty
          ∧ ¬(upwardMoves (firstMoves s sx sy topo) sy).isEmpty
          ∧ verticalBlockedCheck s sx sy gy = true
          ∧ topo = Topology.moore ∧ (upwardMoves (firstMoves s sx sy topo) sy).length > 1 then
        ((some [(sx, sy), rng.choose (upwardMoves (firstMoves s sx sy topo) sy)], 1), s)
      else if decide (el.y ≥ 9) ∧ ¬(firstMoves s sx sy topo).isEmpty
          ∧ ¬(upwardMoves (firstMoves s sx sy topo) sy).isEmpty
          ∧ verticalBlockedCheck s sx sy gy = false then
        ((some [(sx, sy), (upwardMoves (firstMoves s sx sy topo) sy).headD (0, 0)], 1), s)
      else if (firstMoves s sx sy topo).isEmpty then ((some [(sx, sy)], 1), s)
      else
        match
          (if decide (el.y ≥ 9) ∧ rng.coin
              ∧ ¬(upwardMoves (firstMoves s sx sy topo) sy).isEmpty then
            (some (rng.choose (upwardMoves (firstMoves s sx sy topo) sy)), 0, s)
          else
            mmRootLoop
              (fun s2 a b => minimaxValue s2 eid (findPotentialAdversaries s eid sx sy gx gy
                  (decide (el.y ≥ 9)))
                (minimaxAdjustDepth s.elements.length maxDepth - 1) false a b topo gx gy
                (decide (el.y ≥ 9)))
              eid el.x el.y sy (decide (el.y ≥ 9)) (firstMoves s sx sy topo) s none
              XVal.negInf XVal.negInf XVal.posInf 0)
        with
        | (none, nodes, s1) => ((none, nodes), s1)
        | (some best, nodes, s1) =>
          if decide (el.y ≥ 9) then ((some [(sx, sy), best], nodes), s1)
          else astarTail s1 el eid sx sy gx gy best nodes topo astar

/-! ### Expectimax (`app/algorithms/expectimax.py`)

The Python `evaluate_state` of `expectimax.py` reads the name `start_y`,
which is not defined in that function, whenever `is_bottom_row` is true:
it raises `NameError` there.  The embedding returns `Option`, `none`
standing for the exception, which then propagates through
`expectimax_value` and `expectimax_pathfind` exactly as the exception
would. -/

/-- `a + p * b` on extended values (Python float arithmetic of the chance
node; the infinite cases cannot be produced by the recursion but the
models of `float('inf')` arithmetic are kept total). -/
def XVal.addScaled : XVal → ℚ → XVal → XVal
  | XVal.fin a, p, XVal.fin b => XVal.fin (a + p * b)
  | XVal.posInf, _, XVal.fin _ => XVal.posInf
  | XVal.negInf, _, XVal.fin _ => XVal.negInf
  | XVal.fin _, _, XVal.posInf => XVal.posInf
  | XVal.fin _, _, XVal.negInf => XVal.negInf
  | XVal.posInf, _, XVal.posInf => XVal.posInf
  | XVal.negInf, _, XVal.negInf => XVal.negInf
  | XVal.posInf, _, XVal.negInf => XVal.negInf
  | XVal.negInf, _, XVal.posInf => XVal.posInf

/-- `evaluate_state` of `expectimax.py`.  `none` models the `NameError`
raised on the undefined `start_y` in the `is_bottom_row` branch. -/
def expectimaxEvaluateState (s : SimState) (el : Element) (gx gy : Int)
    (interfering : List Nat) (brp : Bool) : Option Int :=
  if brp then none
  else
    let distance := |el.x - gx| + |el.y - gy|
    let distanceScore : Int := -10 * distance
    let dxSign : Int := if gx > el.x then 1 else if gx < el.x then -1 else 0
    let dySign : Int := if gy > el.y then 1 else if gy < el.y then -1 else 0
    let xs := (List.range (gx - el.x).natAbs).map (fun i => el.x + dxSign * ((i : Int) + 1))
    let ys := (List.range (gy - el.y).natAbs).map (fun i => el.y + dySign * ((i : Int) + 1))
    let px : Int :=
      if dxSign ≠ 0 ∧ xs.any (fun x => s.isWall x el.y || s.isElement x el.y) then -15 else 0
    let py : Int :=
      if dySign ≠ 0 ∧ ys.any (fun y => s.isWall el.x y || s.isElement el.x y) then -15 else 0
    let pathClearness := px + py
    let neighbors := s.getNeighbors el.x el.y Topology.vonNeumann
    let freeNeighbors :=
      (neighbors.filter (fun p => !s.isWall p.1 p.2 && !s.isElement p.1 p.2)).length
    let mobilityScore : Int := 5 * freeNeighbors
    let interferencePenalty : Int :=
      interfering.foldl (fun acc otherId =>
        match lookupElement s otherId with
        | none => acc
        | some other =>
            let d := |el.x - other.x| + |el.y - other.y|
            if d ≤ 2 then acc - (3 - d) * 10 else acc) 0
    some (distanceScore + pathClearness + mobilityScore + interferencePenalty)

/-- `calculate_interference_score` of `expectimax.py`. -/
def calculateInterferenceScore (osx osy ogx ogy tx ty : Int)
    (tt : Option (Int × Int)) (brp : Bool) : Int :=
  let dPos := |tx - osx| + |ty - osy|
  let dGoal := |tx - ogx| + |ty - ogy|
  let onOurPath : Bool :=
    if osx = ogx then tx = osx ∧ min osy ogy ≤ ty ∧ ty ≤ max osy ogy
    else if osy = ogy then ty = osy ∧ min osx ogx ≤ tx ∧ tx ≤ max osx ogx
    else
      let inBox := min osx ogx ≤ tx ∧ tx ≤ max osx ogx ∧ min osy ogy ≤ ty ∧ ty ≤ max osy ogy
      if inBox then
        let dx : ℚ := ((ogx - osx : Int) : ℚ)
        let dy : ℚ := ((ogy - osy : Int) : ℚ)
        let t : ℚ := max 0 (min 1
          ((((tx - osx : Int) : ℚ) * dx + ((ty - osy : Int) : ℚ) * dy) / (dx * dx + dy * dy)))
        let projX : ℚ := ((osx : ℚ)) + t * dx
        let projY : ℚ := ((osy : ℚ)) + t * dy
        |((tx : ℚ)) - projX| + |((ty : ℚ)) - projY| ≤ 1
      else false
  let pathIntersection : Int :=
    match tt with
    | none => 0
    | some (ttx, tty) =>
      let ourDx := ogx - osx
      let ourDy := ogy - osy
      let theirDx := ttx - tx
      let theirDy := tty - ty
      let crossMag := |ourDx * theirDy - ourDy * theirDx|
      let dotProduct := ourDx * theirDx + ourDy * theirDy
      if crossMag > 5 then 20 else if dotProduct < 0 then 10 else 5
  let bottomRowFactor : Int :=
    if brp then
      if ty < osy ∧ |tx - osx| ≤ 1 then 50
      else if ty < osy ∧ tx = osx then 40
      else 0
    else 0
  let proximityScore : Int := max 0 (10 - min dPos dGoal)
  proximityScore * 2 + (if onOurPath then 30 else 0) + pathIntersection + bottomRowFactor

/-- `find_interfering_elements` of `expectimax.py`. -/
def findInterferingElements (s : SimState) (eid : Nat) (sx sy gx gy : Int)
    (brp : Bool) : List Nat :=
  let minX := min sx gx - 2
  let maxX := max sx gx + 2
  let minY := if brp then min (sy - 3) gy else min sy gy - 2
  let maxY := if brp then min (sy + 1) (gy + 1) else max sy gy + 2
  let scored := s.elements.foldl (fun acc other =>
    if other.id = eid then acc
    else if minX ≤ other.x ∧ other.x ≤ maxX ∧ minY ≤ other.y ∧ other.y ≤ maxY then
      if other.hasTarget ∧ (other.x ≠ other.targetX ∨ other.y ≠ other.targetY) then
        acc ++ [(other.id,
          calculateInterferenceScore sx sy gx gy other.x other.y other.target brp)]
      else acc
    else acc) []
  if scored.isEmpty then []
  else
    let sorted := scored.mergeSort (fun a b => decide (b.2 ≤ a.2))
    ((sorted.take (if brp then 3 else 2)).map (fun p => p.1))

/-- The MAX-node move loop of `expectimax_value` (no pruning); `none`
propagates the exception of a child. -/
def emMaxLoop (step : SimState → Option (XVal × SimState)) (eid : Nat)
    (moves : List (Int × Int)) (s : SimState) (value : XVal) :
    Option (XVal × SimState) :=
  match moves with
  | [] => some (value, s)
  | (nx, ny) :: rest =>
    let el := (lookupElement s eid).getD (dummyElement eid)
    let s1 := simMove s eid nx ny
    match step s1 with
    | none => none
    | some (mv, s2) =>
      let s3 := simMove s2 eid el.x el.y
      emMaxLoop step eid rest s3 (XVal.maxv value mv)

/-- The chance-node loop of `expectimax_value`: probability-weighted sum
over the adversary's moves, skipping probabilities below 0.01. -/
def emChanceLoop (stepMove : SimState → Option (XVal × SimState)) (advId : Nat)
    (weight : Int × Int → ℚ) (total : ℚ) (moves : List (Int × Int)) (s : SimState)
    (acc : XVal) : Option (XVal × SimState) :=
  match moves with
  | [] => some (acc, s)
  | (nx, ny) :: rest =>
    let adv := (lookupElement s advId).getD (dummyElement advId)
    let p := weight (nx, ny) / total
    if p < 1 / 100 then emChanceLoop stepMove advId weight total rest s acc
    else if nx = adv.x ∧ ny = adv.y then
      match stepMove s with
      | none => none
      | some (mv, s2) =>
        emChanceLoop stepMove advId weight total rest s2 (XVal.addScaled acc p mv)
    else
      let s1 := simMove s advId nx ny
      match stepMove s1 with
      | none => none
      | some (mv, s2) =>
        let s3 := simMove s2 advId adv.x adv.y
        emChanceLoop stepMove advId weight total rest s3 (XVal.addScaled acc p mv)

/-- The stay-in-place weight of the chance node: 3.0 when the adversary is
itself within the bottom 3 rows, else 1.5; every real move weighs 1.0. -/
def chanceWeight (s : SimState) (other : Element) (m : Int × Int) : ℚ :=
  if m.1 = other.x ∧ m.2 = other.y then
    if other.y ≥ s.height - 3 then 3 else 3 / 2
  else 1

/-- The move list of the chance node: the adversary's legal moves plus
staying in place. -/
def chanceMoves (s : SimState) (el other : Element) (topo : Topology) :
    List (Int × Int) :=
  (s.getNeighbors other.x other.y topo).filter (fun p =>
    !s.isWall p.1 p.2 && !(p.1 = el.x && p.2 = el.y) && !s.isElement p.1 p.2)
    ++ [(other.x, other.y)]

/-- Total weight of the chance node (the Python sum over the values of the
`move_weights` dict, whose keys are the distinct moves). -/
def chanceTotalWeight (s : SimState) (other : Element) (moves : List (Int × Int)) : ℚ :=
  (moves.dedup.map (chanceWeight s other)).sum

/-- `expectimax_value` of `expectimax.py`: `fuel` is `max_depth - depth`;
chance nodes consume the interfering queue at the same depth and recurse
to the next depth once it is exhausted.  `none` models the `NameError`
escaping from `evaluate_state`. -/
def expectimaxValue (s : SimState) (eid : Nat) (advs : List Nat) (fuel : Nat)
    (isMax : Bool) (topo : Topology) (gx gy : Int) (brp : Bool) :
    Option (XVal × SimState) :=
  let el := (lookupElement s eid).getD (dummyElement eid)
  match fuel with
  | 0 =>
    match expectimaxEvaluateState s el gx gy advs brp with
    | none => none
    | some v => some (XVal.fin v, s)
  | Nat.succ fuel2 =>
    if el.x = gx ∧ el.y = gy then some (XVal.fin 1000, s)
    else if isMax then
      let neighbors := s.getNeighbors el.x el.y topo
      let valid0 := neighbors.filter (fun p => !s.isWall p.1 p.2 && !s.isElement p.1 p.2)
      let valid :=
        if brp ∧ ¬valid0.isEmpty then
          let ups := valid0.filter (fun p => p.2 < el.y)
          if ¬ups.isEmpty then ups else valid0
        else valid0
      if valid.isEmpty then
        match expectimaxEvaluateState s el gx gy advs brp with
        | none => none
        | some v => some (XVal.fin (v - 20), s)
      else
        emMaxLoop (fun s2 =>
            if advs.isEmpty then expectimaxValue s2 eid [] fuel2 true topo gx gy brp
            else expectimaxValue s2 eid advs fuel2 false topo gx gy brp)
          eid valid s XVal.negInf
    else
      match advs with
      | [] => expectimaxValue s eid [] fuel2 true topo gx gy brp
      | otherId :: rest =>
        match lookupElement s otherId with
        | none =>
          if ¬rest.isEmpty then
            expectimaxValue s eid rest (Nat.succ fuel2) false topo gx gy brp
          else expectimaxValue s eid [] fuel2 true topo gx gy brp
        | some other =>
          let valid := chanceMoves s el other topo
          if valid.isEmpty then
            if ¬rest.isEmpty then
              expectimaxValue s eid rest (Nat.succ fuel2) false topo gx gy brp
            else expectimaxValue s eid [] fuel2 true topo gx gy brp
          else
            emChanceLoop (fun s2 =>
                if ¬rest.isEmpty then
                  expectimaxValue s2 eid rest (Nat.succ fuel2) false topo gx gy brp
                else expectimaxValue s2 eid [] fuel2 true topo gx gy brp)
              otherId (chanceWeight s other) (chanceTotalWeight s other valid)
              valid s (XVal.fin 0)
  termination_by (fuel, advs.length)

/-- The root loop of `expectimax_pathfind` (no pruning, +100 upward bonus
for bottom-row agents). -/
def emRootLoop (step : SimState → Option (XVal × SimState)) (eid : Nat)
    (ox oy sy : Int) (brp : Bool) (moves : List (Int × Int)) (s : SimState)
    (best : Option (Int × Int)) (bestValue : XVal) (nodes : Nat) :
    Option (Option (Int × Int) × Nat × SimState) :=
  match moves with
  | [] => some (best, nodes, s)
  | (nx, ny) :: rest =>
    match step (simMove s eid nx ny) with
    | none => none
    | some (mv, s2) =>
      emRootLoop step eid ox oy sy brp rest (simMove s2 eid ox oy)
        (if XVal.lt bestValue (if brp ∧ ny < sy then XVal.add mv 100 else mv) then
          some (nx, ny) else best)
        (if XVal.lt bestValue (if brp ∧ ny < sy then XVal.add mv 100 else mv) then
          (if brp ∧ ny < sy then XVal.add mv 100 else mv) else bestValue)
        (nodes + 1)

/-- The depth adjustment of `expectimax_pathfind`: depth 1 above 15
elements, depth 2 above 10, the caller's depth otherwise. -/
def expectimaxAdjustDepth (numElements maxDepth : Nat) : Nat :=
  if numElements > 15 then 1 else if numElements > 10 then 2 else maxDepth

/-- Upward diagonal moves that advance toward the target column. -/
def diagTowardTarget (ups : List (Int × Int)) (sx targetDx : Int) : List (Int × Int) :=
  ups.filter (fun p => (targetDx > 0 ∧ p.1 > sx) ∨ (targetDx < 0 ∧ p.1 < sx))

/-- `expectimax_pathfind` of `expectimax.py`.  The outer `Option` is the
`NameError` of `evaluate_state` escaping the whole call; `some` carries
((path?, nodes explored), state after the call). -/
def expectimaxPathfind (s : SimState) (sx sy gx gy : Int) (eid : Nat) (topo : Topology)
    (maxDepth : Nat) (rng : Rng) (astar : AStarFn) :
    Option ((Option (List (Int × Int)) × Nat) × SimState) :=
  if ¬s.isValidPosition sx sy ∨ ¬s.isValidPosition gx gy then some ((none, 0), s)
  else if s.isWall sx sy ∨ s.isWall gx gy then some ((none, 0), s)
  else if sx = gx ∧ sy = gy then some ((some [(sx, sy)], 1), s)
  else
    match lookupElement s eid with
    | none => some ((none, 0), s)
    | some el =>
      if decide (el.y ≥ s.height - 3) ∧ ¬(firstMoves s sx sy topo).isEmpty
          ∧ ¬(upwardMoves (firstMoves s sx sy topo) sy).isEmpty then
        if topo = Topology.moore ∧ (upwardMoves (firstMoves s sx sy topo) sy).length > 1 then
          if |gx - sx| > 1 then
            if ¬(diagTowardTarget (upwardMoves (firstMoves s sx sy topo) sy) sx
                (gx - sx)).isEmpty then
              some ((some [(sx, sy), rng.choose (diagTowardTarget
                (upwardMoves (firstMoves s sx sy topo) sy) sx (gx - sx))], 1), s)
            else some ((some [(sx, sy),
              (upwardMoves (firstMoves s sx sy topo) sy).headD (0, 0)], 1), s)
          else some ((some [(sx, sy),
            (upwardMoves (firstMoves s sx sy topo) sy).headD (0, 0)], 1), s)
        else
          if (sx, sy - 1) ∈ upwardMoves (firstMoves s sx sy topo) sy then
            some ((some [(sx, sy), (sx, sy - 1)], 1), s)
          else some ((some [(sx, sy),
            (upwardMoves (firstMoves s sx sy topo) sy).headD (0, 0)], 1), s)
      else if (firstMoves s sx sy topo).isEmpty then some ((some [(sx, sy)], 1), s)
      else
        match
          emRootLoop
            (fun s2 => expectimaxValue s2 eid (findInterferingElements s eid sx sy gx gy
                (decide (el.y ≥ s.height - 3)))
              (expectimaxAdjustDepth s.elements.length maxDepth - 1) true topo gx gy
              (decide (el.y ≥ s.height - 3)))
            eid el.x el.y sy (decide (el.y ≥ s.height - 3)) (firstMoves s sx sy topo) s
            none XVal.negInf 0
        with
        | none => none
        | some (none, nodes, s1) => some ((none, nodes), s1)
        | some (some best, nodes, s1) =>
          if decide (el.y ≥ s.height - 3) then some ((some [(sx, sy), best], nodes), s1)
          else some (astarTail s1 el eid sx sy gx gy best nodes topo astar)

/-! ### Transformation orchestrator fragments
(`app/controllers/simulation.py`) -/

/-- Modelled from the spec: `grid.move_element(element, x, y)` (§4.1
`move`): fails with no mutation when the destination is out of bounds, a
wall or occupied; otherwise atomically updates the cell array and the
element's stored position. -/
def moveElement (s : SimState) (eid : Nat) (nx ny : Int) : Bool × SimState :=
  match lookupElement s eid with
  | none => (false, s)
  | some _ =>
    if ¬s.isValidPosition nx ny ∨ s.isWall nx ny ∨ s.isElement nx ny then (false, s)
    else (true, simMove s eid nx ny)

/-- One recorded move: (agent id, from, to). -/
abbrev MoveRec := Nat × (Int × Int) × (Int × Int)

/-- The commit loop of one parallel round of `_transform_centralized`
(lines 222–233): first-come reservation via `positions_taken`, a move to
an already-taken cell is silently skipped, and only successful
`move_element` calls are recorded.  (The Python code reads `"from"` after
the move succeeded, so the recorded source equals the destination; kept
faithful.) -/
def commitCentralized (s : SimState) (planned : List (Nat × (Int × Int)))
    (taken : List (Int × Int)) (movesAcc : List MoveRec) :
    List MoveRec × SimState :=
  match planned with
  | [] => (movesAcc, s)
  | (eid, pos) :: rest =>
    if pos ∈ taken then commitCentralized s rest taken movesAcc
    else
      let r := moveElement s eid pos.1 pos.2
      if r.1 then
        let el1 := (lookupElement r.2 eid).getD (dummyElement eid)
        commitCentralized r.2 rest (taken ++ [pos]) (movesAcc ++ [(eid, (el1.x, el1.y), pos)])
      else commitCentralized r.2 rest taken movesAcc

/-- The reservation pass of `_transform_independent` (lines 883–894):
first writer wins, later agents wanting a reserved cell are dropped. -/
def reserveMoves (moves : List (Nat × (Int × Int))) (reservations : List (Int × Int))
    (acc : List (Nat × (Int × Int))) : List (Nat × (Int × Int)) :=
  match moves with
  | [] => acc
  | (eid, pos) :: rest =>
    if pos ∈ reservations then reserveMoves rest reservations acc
    else reserveMoves rest (reservations ++ [pos]) (acc ++ [(eid, pos)])

/-- The execution pass of `_transform_independent` (lines 896–918): each
reserved move is attempted with `move_element`; only successes are
recorded (`from` read before the move here). -/
def executeIndependent (s : SimState) (validMoves : List (Nat × (Int × Int)))
    (movesAcc : List MoveRec) : List MoveRec × SimState :=
  match validMoves with
  | [] => (movesAcc, s)
  | (eid, pos) :: rest =>
    let el := (lookupElement s eid).getD (dummyElement eid)
    let r := moveElement s eid pos.1 pos.2
    if r.1 then executeIndependent r.2 rest (movesAcc ++ [(eid, (el.x, el.y), pos)])
    else executeIndependent r.2 rest movesAcc

/-- The success metrics of `_transform_independent` (lines 941–958):
fraction of target-holding elements standing on their target, and the
`success` flag `success_rate > 0.95`. -/
def independentMetrics (s : SimState) : ℚ × Bool :=
  let totalWithTargets := (s.elements.filter (fun e => e.hasTarget)).length
  let atTarget := (s.elements.filter (fun e =>
    e.hasTarget && e.x = e.targetX && e.y = e.targetY)).length
  let successRate : ℚ :=
    if totalWithTargets > 0 then (atTarget : ℚ) / (totalWithTargets : ℚ) else 0
  (successRate, successRate > (0.95 : ℚ))

/-- Overwrite the target of one registry entry (one half of a swap). -/
def setTarget (s : SimState) (eid : Nat) (t : Option (Int × Int)) : SimState :=
  { s with elements :=
      s.elements.map (fun e => if e.id = eid then { e with target := t } else e) }

/-- The inner loop of `_swap_targets_for_blocked_elements`: first `other`
whose target swap with `b` strictly reduces the summed Manhattan
distances. -/
def findSwapInner (s : SimState) (b : Element) (others : List Element) :
    Option SimState :=
  match others with
  | [] => none
  | o :: rest =>
    if |b.x - o.targetX| + |b.y - o.targetY| + (|o.x - b.targetX| + |o.y - b.targetY|)
        < b.distanceToTarget + o.distanceToTarget then
      some (setTarget (setTarget s b.id o.target) o.id b.target)
    else findSwapInner s b rest

/-- The outer loop of `_swap_targets_for_blocked_elements`. -/
def findSwapPair (s : SimState) (blockedObjs others : List Element) :
    Bool × SimState :=
  match blockedObjs with
  | [] => (false, s)
  | b :: rest =>
    match findSwapInner s b others with
    | some s2 => (true, s2)
    | none => findSwapPair s rest others

/-- `_swap_targets_for_blocked_elements` of `simulation.py` (lines
1089–1141): swap the targets of the first blocked/other pair whose swap
strictly reduces the summed distances; at most one swap, then return. -/
def swapTargetsForBlockedElements (s : SimState) (blocked : List Nat) :
    Bool × SimState :=
  if blocked.isEmpty then (false, s)
  else
    let blockedObjs := (blocked.filterMap (fun eid => lookupElement s eid)).filter
      (fun e => e.hasTarget)
    if blockedObjs.isEmpty then (false, s)
    else
      let others := s.elements.filter (fun e =>
        !blocked.contains e.id && e.hasTarget && !(e.x = e.targetX && e.y = e.targetY))
      if others.isEmpty then (false, s)
      else findSwapPair s blockedObjs others

/-- The invocation schedule of the target-swap recovery inside
`_transform_independent` (lines 521–528): after tick 100, with a nonempty
blocked set, every 15 ticks under von Neumann and every 20 under Moore. -/
def swapInvoked (currentStep : Nat) (topo : Topology) (blockedNonempty : Bool) : Bool :=
  currentStep > 100 && blockedNonempty &&
    currentStep % (if topo = Topology.vonNeumann then 15 else 20) = 0

/-! ### State restoration of the adversarial search (claim C1 machinery) -/

/-- A cell passing the `not is_wall and not is_element` filter is empty. -/
theorem cellAt_empty_of_filter {s : SimState} {x y : Int}
    (hw : s.isWall x y = false) (he : s.isElement x y = false) :
    cellAt s.cells x y = Cell.empty := by
  unfold SimState.isWall at hw
  unfold SimState.isElement at he
  cases hcell : cellAt s.cells x y with
  | empty => rfl
  | wall => rw [hcell] at hw; simp at hw
  | occupied i => rw [hcell] at he; simp at he

theorem isSome_lookup_simMove {s : SimState} (eid2 : Nat) (nx ny : Int) {eid : Nat}
    (h : (lookupElement s eid).isSome) :
    (lookupElement (simMove s eid2 nx ny) eid).isSome := by
  rw [lookupElement_simMove]
  cases hl : lookupElement s eid with
  | none => rw [hl] at h; simp at h
  | some el => simp

/-- Remove-then-re-add of the planning phase restores the grid. -/
theorem addRemove_restore {s : SimState} {eid : Nat} {el : Element}
    (hwf : WF s) (hfind : lookupElement s eid = some el) :
    addElementAt (removeElementAt s el.x el.y) el.x el.y eid = s := by
  have hocc : cellAt s.cells el.x el.y = Cell.occupied eid := cellAt_of_WF hwf hfind
  show ({ s with
      cells := (setCell (setCell s.cells el.x el.y Cell.empty) el.x el.y (Cell.occupied eid)) } :
    SimState) = s
  rw [setCell_setCell_same, setCell_self hocc]

/-- The MAX-node loop hands back exactly the state it was given. -/
theorem mmMaxLoop_state {step : SimState → XVal → XVal → XVal × SimState} {eid : Nat}
    (hstep : ∀ s2 a b, WF s2 → (lookupElement s2 eid).isSome → (step s2 a b).2 = s2) :
    ∀ (moves : List (Int × Int)) (s : SimState) (v alpha beta : XVal),
      WF s → (lookupElement s eid).isSome →
      (∀ m ∈ moves, cellAt s.cells m.1 m.2 = Cell.empty) →
      (mmMaxLoop step eid moves s v alpha beta).2 = s := by
  intro moves
  induction moves with
  | nil => intro s v alpha beta _ _ _; rfl
  | cons m rest ih =>
    intro s v alpha beta hwf hsome hmoves
    obtain ⟨el, hfind⟩ := Option.isSome_iff_exists.mp hsome
    obtain ⟨nx, ny⟩ := m
    have hfree : cellAt s.cells nx ny = Cell.empty := hmoves (nx, ny) (by simp)
    have hwf1 : WF (simMove s eid nx ny) := WF_simMove hwf hfind hfree
    have hsome1 : (lookupElement (simMove s eid nx ny) eid).isSome :=
      isSome_lookup_simMove eid nx ny hsome
    have hstep1 := hstep (simMove s eid nx ny) alpha beta hwf1 hsome1
    show (mmMaxLoop step eid ((nx, ny) :: rest) s v alpha beta).2 = s
    unfold mmMaxLoop
    rw [hfind]
    simp only [Option.getD_some]
    rw [hstep1]
    rw [simMove_restore hwf hfind hfree]
    split
    · rfl
    · exact ih s _ _ _ hwf hsome (fun m hm => hmoves m (List.mem_cons_of_mem _ hm))

/-- The MIN-node loop hands back exactly the state it was given.  `eid`
is the searched element, whose registry entry the recursive `step` needs
to find. -/
theorem mmMinLoop_state {step : SimState → XVal → XVal → XVal × SimState}
    {advId eid : Nat}
    (hstep : ∀ s2 a b, WF s2 → (lookupElement s2 eid).isSome → (step s2 a b).2 = s2) :
    ∀ (moves : List (Int × Int)) (s : SimState) (v alpha beta : XVal),
      WF s → (lookupElement s eid).isSome →
      ∀ adv, lookupElement s advId = some adv →
      (∀ m ∈ moves, m ≠ (adv.x, adv.y) → cellAt s.cells m.1 m.2 = Cell.empty) →
      (mmMinLoop step advId moves s v alpha beta).2 = s := by
  intro moves
  induction moves with
  | nil => intro s v alpha beta _ _ adv _ _; rfl
  | cons m rest ih =>
    intro s v alpha beta hwf hsome adv hfind hmoves
    obtain ⟨nx, ny⟩ := m
    show (mmMinLoop step advId ((nx, ny) :: rest) s v alpha beta).2 = s
    unfold mmMinLoop
    rw [hfind]
    simp only [Option.getD_some]
    by_cases hstay : nx = adv.x ∧ ny = adv.y
    · rw [if_pos hstay]
      simp only [hstep s alpha beta hwf hsome]
      split
      · rfl
      · exact ih s _ _ _ hwf hsome adv hfind
          (fun m hm hne => hmoves m (List.mem_cons_of_mem _ hm) hne)
    · rw [if_neg hstay]
      have hfree : cellAt s.cells nx ny = Cell.empty :=
        hmoves (nx, ny) (by simp) (by simpa [Prod.mk.injEq] using hstay)
      have hwf1 : WF (simMove s advId nx ny) := WF_simMove hwf hfind hfree
      have hsome1 : (lookupElement (simMove s advId nx ny) eid).isSome :=
        isSome_lookup_simMove advId nx ny hsome
      simp only [hstep (simMove s advId nx ny) alpha beta hwf1 hsome1]
      rw [simMove_restore hwf hfind hfree]
      split
      · rfl
      · exact ih s _ _ _ hwf hsome adv hfind
          (fun m hm hne => hmoves m (List.mem_cons_of_mem _ hm) hne)

/-- Membership in the MAX-node legal-move filter gives an empty cell. -/
theorem mem_maxFilter_empty {s : SimState} {l : List (Int × Int)} {m : Int × Int}
    (hm : m ∈ l.filter (fun p => !s.isWall p.1 p.2 && !s.isElement p.1 p.2)) :
    cellAt s.cells m.1 m.2 = Cell.empty := by
  rw [List.mem_filter] at hm
  have h2 := hm.2
  simp only [Bool.and_eq_true, Bool.not_eq_true'] at h2
  exact cellAt_empty_of_filter h2.1 h2.2

/-- Membership in the MIN-node legal-move filter gives an empty cell. -/
theorem mem_minFilter_empty {s : SimState} {l : List (Int × Int)} {ex ey : Int}
    {m : Int × Int}
    (hm : m ∈ l.filter (fun p =>
      !s.isWall p.1 p.2 && !(p.1 = ex && p.2 = ey) && !s.isElement p.1 p.2)) :
    cellAt s.cells m.1 m.2 = Cell.empty := by
  rw [List.mem_filter] at hm
  have h2 := hm.2
  simp only [Bool.and_eq_true, Bool.not_eq_true'] at h2
  exact cellAt_empty_of_filter h2.1.1 h2.2

/-- `minimax_value` leaves the grid and every element position exactly as
it found them, on every branch (MAX, MIN, terminal, and pruning cuts). -/
theorem minimaxValue_state (eid : Nat) (topo : Topology) (gx gy : Int) (brp : Bool) :
    ∀ (fuel : Nat) (s : SimState) (advs : List Nat) (isMax : Bool) (alpha beta : XVal),
      WF s → (lookupElement s eid).isSome →
      (minimaxValue s eid advs fuel isMax alpha beta topo gx gy brp).2 = s := by
  intro fuel
  induction fuel with
  | zero => intro s advs isMax alpha beta _ _; rfl
  | succ fuel2 ih =>
    intro s advs isMax alpha beta hwf hsome
    obtain ⟨el, hel⟩ := Option.isSome_iff_exists.mp hsome
    show (minimaxValue s eid advs (Nat.succ fuel2) isMax alpha beta topo gx gy brp).2 = s
    rw [minimaxValue.eq_def, hel]
    simp only [Option.getD_some]
    split
    · rfl
    · split
      · -- MAX node
        have hloop : ∀ (valid : List (Int × Int)),
            (∀ m ∈ valid, cellAt s.cells m.1 m.2 = Cell.empty) →
            (if valid.isEmpty = true then
              (XVal.fin (evaluateState s el gx gy advs brp - 20), s)
            else mmMaxLoop
              (fun s2 a b => minimaxValue s2 eid advs fuel2 false a b topo gx gy brp)
              eid valid s XVal.negInf alpha beta).2 = s := by
          intro valid hmoves
          split
          · rfl
          · exact mmMaxLoop_state
              (fun s2 a b hwf2 hsome2 => ih s2 advs false a b hwf2 hsome2)
              valid s _ _ _ hwf hsome hmoves
        split
        · split
          · exact mmMaxLoop_state
              (fun s2 a b hwf2 hsome2 => ih s2 advs false a b hwf2 hsome2)
              _ s _ _ _ hwf hsome
              (fun m hm => mem_maxFilter_empty (List.mem_of_mem_filter hm))
          · exact hloop _ (fun m hm => mem_maxFilter_empty hm)
        · exact hloop _ (fun m hm => mem_maxFilter_empty hm)
      · -- MIN node
        split
        · exact ih s [] true alpha beta hwf hsome
        · rename_i advId rest
          split
          · rfl
          · rename_i adv hadv
            have hloop2 : ∀ (valid : List (Int × Int)),
                (∀ m ∈ valid, m ≠ (adv.x, adv.y) → cellAt s.cells m.1 m.2 = Cell.empty) →
                (if valid.isEmpty = true then
                  minimaxValue s eid rest fuel2 true alpha beta topo gx gy brp
                else mmMinLoop
                  (fun s2 a b => minimaxValue s2 eid rest fuel2 true a b topo gx gy brp)
                  advId valid s XVal.posInf alpha beta).2 = s := by
              intro valid hmoves
              split
              · exact ih s rest true alpha beta hwf hsome
              · exact @mmMinLoop_state _ advId eid
                  (fun s2 a b hwf2 hsome2 => ih s2 rest true a b hwf2 hsome2)
                  valid s _ _ _ hwf hsome adv hadv hmoves
            have hstaymem : ∀ m ∈ [((adv.x : Int), (adv.y : Int))], m ≠ (adv.x, adv.y) →
                cellAt s.cells m.1 m.2 = Cell.empty := by
              intro m hm hne
              simp only [List.mem_singleton] at hm
              exact absurd hm hne
            have hstaymem3 : ∀ m ∈ [((adv.x : Int), adv.y), (adv.x, adv.y), (adv.x, adv.y)],
                m ≠ (adv.x, adv.y) → cellAt s.cells m.1 m.2 = Cell.empty := by
              intro m hm hne
              simp only [List.mem_cons, List.mem_singleton, List.not_mem_nil, or_false] at hm
              rcases hm with hm | hm | hm <;> exact absurd hm hne
            split
            · apply hloop2
              intro m hm hne
              rw [List.mem_append] at hm
              rcases hm with hm | hm
              · rw [List.mem_append] at hm
                rcases hm with hm | hm
                · exact mem_minFilter_empty hm
                · exact hstaymem m hm hne
              · exact hstaymem3 m hm hne
            · apply hloop2
              intro m hm hne
              rw [List.mem_append] at hm
              rcases hm with hm | hm
              · exact mem_minFilter_empty hm
              · exact hstaymem m hm hne

/-- The root loop of `minimax_pathfind` restores the state after every
candidate first move. -/
theorem mmRootLoop_state {step : SimState → XVal → XVal → XVal × SimState} {eid : Nat}
    (hstep : ∀ s2 a b, WF s2 → (lookupElement s2 eid).isSome → (step s2 a b).2 = s2) :
    ∀ (moves : List (Int × Int)) (s : SimState) (el : Element) (sy : Int) (brp : Bool)
      (best : Option (Int × Int)) (bv alpha beta : XVal) (nodes : Nat),
      WF s → lookupElement s eid = some el →
      (∀ m ∈ moves, cellAt s.cells m.1 m.2 = Cell.empty) →
      (mmRootLoop step eid el.x el.y sy brp moves s best bv alpha beta nodes).2.2 = s := by
  intro moves
  induction moves with
  | nil => intro s el sy brp best bv alpha beta nodes _ _ _; rfl
  | cons m rest ih =>
    intro s el sy brp best bv alpha beta nodes hwf hfind hmoves
    obtain ⟨nx, ny⟩ := m
    have hfree : cellAt s.cells nx ny = Cell.empty := hmoves (nx, ny) (by simp)
    have hwf1 : WF (simMove s eid nx ny) := WF_simMove hwf hfind hfree
    have hsome1 : (lookupElement (simMove s eid nx ny) eid).isSome :=
      isSome_lookup_simMove eid nx ny (by rw [hfind]; rfl)
    show (mmRootLoop step eid el.x el.y sy brp ((nx, ny) :: rest) s best bv alpha beta
      nodes).2.2 = s
    unfold mmRootLoop
    simp only [hstep (simMove s eid nx ny) alpha beta hwf1 hsome1]
    rw [simMove_restore hwf hfind hfree]
    exact ih s el sy brp _ _ _ _ _ hwf hfind
      (fun m hm => hmoves m (List.mem_cons_of_mem _ hm))

/-- The A* tail restores the state (remove-then-re-add of the element). -/
theorem astarTail_state {s : SimState} {el : Element} {eid : Nat} {sx sy gx gy : Int}
    {best : Int × Int} {nodes : Nat} {topo : Topology} {astar : AStarFn}
    (hwf : WF s) (hel : lookupElement s eid = some el) :
    (astarTail s el eid sx sy gx gy best nodes topo astar).2 = s := by
  unfold astarTail
  split
  · split
    · exact addRemove_restore hwf hel
    · exact addRemove_restore hwf hel
  · exact addRemove_restore hwf hel

/-- A member of `firstMoves` stands on an empty cell. -/
theorem mem_firstMoves_empty {s : SimState} {sx sy : Int} {topo : Topology}
    {m : Int × Int} (hm : m ∈ firstMoves s sx sy topo) :
    cellAt s.cells m.1 m.2 = Cell.empty :=
  mem_maxFilter_empty hm

theorem minimaxPathfind_state {s : SimState} {sx sy gx gy : Int} {eid : Nat}
    {topo : Topology} {maxDepth : Nat} {rng : Rng} {astar : AStarFn}
    (hwf : WF s) :
    (minimaxPathfind s sx sy gx gy eid topo maxDepth rng astar).2 = s := by
  unfold minimaxPathfind
  split
  · rfl
  · split
    · rfl
    · split
      · rfl
      · split
        · rfl
        · rename_i el hel
          split
          · rfl
          · split
            · rfl
            · split
              · rfl
              · split
                · rename_i nodes s1 heq
                  have hS := congrArg (fun t =>
                    (t : Option (Int × Int) × Nat × SimState).2.2) heq
                  simp only at hS ⊢
                  rw [← hS]
                  split
                  · rfl
                  · apply mmRootLoop_state
                      (fun s2 a b hwf2 hsome2 =>
                        minimaxValue_state eid topo gx gy _ _ s2 _ false a b hwf2 hsome2)
                      _ s el sy _ _ _ _ _ _ hwf hel
                      (fun m hm => mem_firstMoves_empty hm)
                · rename_i best nodes s1 heq
                  have hS := congrArg (fun t =>
                    (t : Option (Int × Int) × Nat × SimState).2.2) heq
                  simp only at hS
                  have hs1 : s1 = s := by
                    rw [← hS]
                    split
                    · rfl
                    · apply mmRootLoop_state
                        (fun s2 a b hwf2 hsome2 =>
                          minimaxValue_state eid topo gx gy _ _ s2 _ false a b hwf2 hsome2)
                        _ s el sy _ _ _ _ _ _ hwf hel
                        (fun m hm => mem_firstMoves_empty hm)
                  subst hs1
                  split
                  · rfl
                  · exact astarTail_state hwf hel

/-- The Expectimax MAX-node loop restores the state whenever it returns
(a `none` result is the exception escaping before restoration). -/
theorem emMaxLoop_state {step : SimState → Option (XVal × SimState)} {eid : Nat}
    (hstep : ∀ s2, WF s2 → (lookupElement s2 eid).isSome →
      ∀ v s3, step s2 = some (v, s3) → s3 = s2) :
    ∀ (moves : List (Int × Int)) (s : SimState) (value : XVal),
      WF s → (lookupElement s eid).isSome →
      (∀ m ∈ moves, cellAt s.cells m.1 m.2 = Cell.empty) →
      ∀ v s2, emMaxLoop step eid moves s value = some (v, s2) → s2 = s := by
  intro moves
  induction moves with
  | nil =>
    intro s value _ _ _ v s2 h
    unfold emMaxLoop at h
    exact (Prod.mk.injEq _ _ _ _ ▸ Option.some.inj h).2.symm
  | cons m rest ih =>
    intro s value hwf hsome hmoves v s2 h
    obtain ⟨el, hfind⟩ := Option.isSome_iff_exists.mp hsome
    obtain ⟨nx, ny⟩ := m
    have hfree : cellAt s.cells nx ny = Cell.empty := hmoves (nx, ny) (by simp)
    have hwf1 : WF (simMove s eid nx ny) := WF_simMove hwf hfind hfree
    have hsome1 : (lookupElement (simMove s eid nx ny) eid).isSome :=
      isSome_lookup_simMove eid nx ny hsome
    unfold emMaxLoop at h
    rw [hfind] at h
    simp only [Option.getD_some] at h
    split at h
    · exact absurd h (by simp)
    · rename_i mv s3 heq
      have hs3 : s3 = simMove s eid nx ny := hstep _ hwf1 hsome1 _ _ heq
      rw [hs3, simMove_restore hwf hfind hfree] at h
      exact ih s _ hwf hsome (fun m hm => hmoves m (List.mem_cons_of_mem _ hm)) v s2 h

/-- The Expectimax chance-node loop restores the state whenever it
returns. -/
theorem emChanceLoop_state {stepMove : SimState → Option (XVal × SimState)}
    {advId eid : Nat}
    (hstep : ∀ s2, WF s2 → (lookupElement s2 eid).isSome →
      ∀ v s3, stepMove s2 = some (v, s3) → s3 = s2)
    (weight : Int × Int → ℚ) (total : ℚ) :
    ∀ (moves : List (Int × Int)) (s : SimState) (acc : XVal),
      WF s → (lookupElement s eid).isSome →
      ∀ adv, lookupElement s advId = some adv →
      (∀ m ∈ moves, m ≠ (adv.x, adv.y) → cellAt s.cells m.1 m.2 = Cell.empty) →
      ∀ v s2, emChanceLoop stepMove advId weight total moves s acc = some (v, s2) →
      s2 = s := by
  intro moves
  induction moves with
  | nil =>
    intro s acc _ _ adv _ _ v s2 h
    unfold emChanceLoop at h
    exact (Prod.mk.injEq _ _ _ _ ▸ Option.some.inj h).2.symm
  | cons m rest ih =>
    intro s acc hwf hsome adv hfind hmoves v s2 h
    obtain ⟨nx, ny⟩ := m
    unfold emChanceLoop at h
    rw [hfind] at h
    simp only [Option.getD_some] at h
    split at h
    · exact ih s _ hwf hsome adv hfind
        (fun m hm hne => hmoves m (List.mem_cons_of_mem _ hm) hne) v s2 h
    · split at h
      · -- stay in place
        split at h
        · exact absurd h (by simp)
        · rename_i mv s3 heq
          have hs3 : s3 = s := hstep _ hwf hsome _ _ heq
          rw [hs3] at h
          exact ih s _ hwf hsome adv hfind
            (fun m hm hne => hmoves m (List.mem_cons_of_mem _ hm) hne) v s2 h
      · rename_i hp hstay
        have hfree : cellAt s.cells nx ny = Cell.empty :=
          hmoves (nx, ny) (by simp) (by simpa [Prod.mk.injEq] using hstay)
        have hwf1 : WF (simMove s advId nx ny) := WF_simMove hwf hfind hfree
        have hsome1 : (lookupElement (simMove s advId nx ny) eid).isSome :=
          isSome_lookup_simMove advId nx ny hsome
        split at h
        · exact absurd h (by simp)
        · rename_i mv s3 heq
          have hs3 : s3 = simMove s advId nx ny := hstep _ hwf1 hsome1 _ _ heq
          rw [hs3, simMove_restore hwf hfind hfree] at h
          exact ih s _ hwf hsome adv hfind
            (fun m hm hne => hmoves m (List.mem_cons_of_mem _ hm) hne) v s2 h

/-- A member of `chanceMoves` other than the stay-in-place entry stands on
an empty cell. -/
theorem mem_chanceMoves_empty {s : SimState} {el other : Element} {topo : Topology}
    {m : Int × Int} (hm : m ∈ chanceMoves s el other topo)
    (hne : m ≠ (other.x, other.y)) : cellAt s.cells m.1 m.2 = Cell.empty := by
  unfold chanceMoves at hm
  rw [List.mem_append] at hm
  rcases hm with hm | hm
  · exact mem_minFilter_empty hm
  · simp only [List.mem_singleton] at hm
    exact absurd hm hne

/-- `expectimax_value` restores the state whenever it returns (on the
exception path nothing is restored, and nothing is returned). -/
theorem expectimaxValue_state (eid : Nat) (topo : Topology) (gx gy : Int) (brp : Bool) :
    ∀ (fuel : Nat) (advs : List Nat) (s : SimState) (isMax : Bool),
      WF s → (lookupElement s eid).isSome →
      ∀ v s2, expectimaxValue s eid advs fuel isMax topo gx gy brp = some (v, s2) →
      s2 = s := by
  intro fuel
  induction fuel with
  | zero =>
    intro advs s isMax _ _ v s2 h
    rw [expectimaxValue.eq_def] at h
    simp only at h
    split at h
    · exact absurd h (by simp)
    · exact (Prod.mk.injEq _ _ _ _ ▸ Option.some.inj h).2.symm
  | succ fuel2 ihf =>
    intro advs
    have hstepMax : ∀ (advs2 : List Nat) (s2 : SimState),
        WF s2 → (lookupElement s2 eid).isSome →
        ∀ v s3,
          (if advs2.isEmpty then expectimaxValue s2 eid [] fuel2 true topo gx gy brp
           else expectimaxValue s2 eid advs2 fuel2 false topo gx gy brp) = some (v, s3) →
          s3 = s2 := by
      intro advs2 s2 hwf2 hsome2 v s3 heq
      split at heq
      · exact ihf [] s2 true hwf2 hsome2 v s3 heq
      · exact ihf advs2 s2 false hwf2 hsome2 v s3 heq
    induction advs with
    | nil =>
      intro s isMax hwf hsome v s2 h
      obtain ⟨el, hel⟩ := Option.isSome_iff_exists.mp hsome
      rw [expectimaxValue.eq_def, hel] at h
      simp only [Option.getD_some] at h
      split at h
      · exact (Prod.mk.injEq _ _ _ _ ▸ Option.some.inj h).2.symm
      · split at h
        · -- MAX node
          have hloop : ∀ (valid : List (Int × Int)),
              (∀ m ∈ valid, cellAt s.cells m.1 m.2 = Cell.empty) →
              (if valid.isEmpty = true then
                (match expectimaxEvaluateState s el gx gy [] brp with
                 | none => none
                 | some v0 => some (XVal.fin (v0 - 20), s))
              else emMaxLoop
                (fun s2 =>
                  if ([] : List Nat).isEmpty = true then
                    expectimaxValue s2 eid [] fuel2 true topo gx gy brp
                  else expectimaxValue s2 eid [] fuel2 false topo gx gy brp)
                eid valid s XVal.negInf) = some (v, s2) → s2 = s := by
            intro valid hmoves hh
            split at hh
            · split at hh
              · exact absurd hh (by simp)
              · exact (Prod.mk.injEq _ _ _ _ ▸ Option.some.inj hh).2.symm
            · exact emMaxLoop_state
                (fun s3 hwf3 hsome3 v3 s4 heq => hstepMax [] s3 hwf3 hsome3 v3 s4 heq)
                valid s _ hwf hsome hmoves v s2 hh
          split at h
          · split at h
            · exact emMaxLoop_state
                (fun s3 hwf3 hsome3 v3 s4 heq => hstepMax [] s3 hwf3 hsome3 v3 s4 heq)
                _ s _ hwf hsome
                (fun m hm => mem_maxFilter_empty (List.mem_of_mem_filter hm)) v s2 h
            · exact hloop _ (fun m hm => mem_maxFilter_empty hm) h
          · exact hloop _ (fun m hm => mem_maxFilter_empty hm) h
        · -- chance node with no interfering elements
          exact ihf [] s true hwf hsome v s2 h
    | cons otherId rest ihl =>
      intro s isMax hwf hsome v s2 h
      obtain ⟨el, hel⟩ := Option.isSome_iff_exists.mp hsome
      have hstepChance : ∀ (s2 : SimState),
          WF s2 → (lookupElement s2 eid).isSome →
          ∀ v s3,
            (if ¬rest.isEmpty then
              expectimaxValue s2 eid rest (Nat.succ fuel2) false topo gx gy brp
             else expectimaxValue s2 eid [] fuel2 true topo gx gy brp) = some (v, s3) →
            s3 = s2 := by
        intro s2 hwf2 hsome2 v3 s3 heq
        split at heq
        · exact ihl s2 false hwf2 hsome2 v3 s3 heq
        · exact ihf [] s2 true hwf2 hsome2 v3 s3 heq
      rw [expectimaxValue.eq_def, hel] at h
      simp only [Option.getD_some] at h
      split at h
      · exact (Prod.mk.injEq _ _ _ _ ▸ Option.some.inj h).2.symm
      · split at h
        · -- MAX node
          have hloop : ∀ (valid : List (Int × Int)),
              (∀ m ∈ valid, cellAt s.cells m.1 m.2 = Cell.empty) →
              (if valid.isEmpty = true then
                (match expectimaxEvaluateState s el gx gy (otherId :: rest) brp with
                 | none => none
                 | some v0 => some (XVal.fin (v0 - 20), s))
              else emMaxLoop
                (fun s2 =>
                  if (otherId :: rest).isEmpty = true then
                    expectimaxValue s2 eid [] fuel2 true topo gx gy brp
                  else expectimaxValue s2 eid (otherId :: rest) fuel2 false topo gx gy brp)
                eid valid s XVal.negInf) = some (v, s2) → s2 = s := by
            intro valid hmoves hh
            split at hh
            · split at hh
              · exact absurd hh (by simp)
              · exact (Prod.mk.injEq _ _ _ _ ▸ Option.some.inj hh).2.symm
            · exact emMaxLoop_state
                (fun s3 hwf3 hsome3 v3 s4 heq =>
                  hstepMax (otherId :: rest) s3 hwf3 hsome3 v3 s4 heq)
                valid s _ hwf hsome hmoves v s2 hh
          split at h
          · split at h
            · exact emMaxLoop_state
                (fun s3 hwf3 hsome3 v3 s4 heq =>
                  hstepMax (otherId :: rest) s3 hwf3 hsome3 v3 s4 heq)
                _ s _ hwf hsome
                (fun m hm => mem_maxFilter_empty (List.mem_of_mem_filter hm)) v s2 h
            · exact hloop _ (fun m hm => mem_maxFilter_empty hm) h
          · exact hloop _ (fun m hm => mem_maxFilter_empty hm) h
        · -- chance node
          split at h
          · exact hstepChance s hwf hsome v s2 h
          · rename_i other hother
            split at h
            · exact hstepChance s hwf hsome v s2 h
            · exact emChanceLoop_state hstepChance _ _ _ s _ hwf hsome other hother
                (fun m hm hne => mem_chanceMoves_empty hm hne) v s2 h

/-- The root loop of `expectimax_pathfind` restores the state whenever it
returns. -/
theorem emRootLoop_state {step : SimState → Option (XVal × SimState)} {eid : Nat}
    (hstep : ∀ s2, WF s2 → (lookupElement s2 eid).isSome →
      ∀ v s3, step s2 = some (v, s3) → s3 = s2) :
    ∀ (moves : List (Int × Int)) (s : SimState) (el : Element) (sy : Int) (brp : Bool)
      (best : Option (Int × Int)) (bv : XVal) (nodes : Nat),
      WF s → lookupElement s eid = some el →
      (∀ m ∈ moves, cellAt s.cells m.1 m.2 = Cell.empty) →
      ∀ r, emRootLoop step eid el.x el.y sy brp moves s best bv nodes = some r →
      r.2.2 = s := by
  intro moves
  induction moves with
  | nil =>
    intro s el sy brp best bv nodes _ _ _ r h
    unfold emRootLoop at h
    rw [← Option.some.inj h]
  | cons m rest ih =>
    intro s el sy brp best bv nodes hwf hfind hmoves r h
    obtain ⟨nx, ny⟩ := m
    have hfree : cellAt s.cells nx ny = Cell.empty := hmoves (nx, ny) (by simp)
    have hwf1 : WF (simMove s eid nx ny) := WF_simMove hwf hfind hfree
    have hsome1 : (lookupElement (simMove s eid nx ny) eid).isSome :=
      isSome_lookup_simMove eid nx ny (by rw [hfind]; rfl)
    unfold emRootLoop at h
    cases heq : step (simMove s eid nx ny) with
    | none => rw [heq] at h; exact absurd h (by simp)
    | some p =>
      obtain ⟨mv, s3⟩ := p
      rw [heq] at h
      simp only at h
      have hs3 : s3 = simMove s eid nx ny := hstep _ hwf1 hsome1 _ _ heq
      rw [hs3, simMove_restore hwf hfind hfree] at h
      exact ih s el sy brp _ _ _ hwf hfind
        (fun m hm => hmoves m (List.mem_cons_of_mem _ hm)) r h

/-- `expectimax_pathfind` restores the state whenever it returns. -/
theorem expectimaxPathfind_state {s : SimState} {sx sy gx gy : Int} {eid : Nat}
    {topo : Topology} {maxDepth : Nat} {rng : Rng} {astar : AStarFn}
    (hwf : WF s) :
    ∀ r, expectimaxPathfind s sx sy gx gy eid topo maxDepth rng astar = some r →
    r.2 = s := by
  intro r h
  unfold expectimaxPathfind at h
  split at h
  · rw [← Option.some.inj h]
  · split at h
    · rw [← Option.some.inj h]
    · split at h
      · rw [← Option.some.inj h]
      · split at h
        · rw [← Option.some.inj h]
        · rename_i el hel
          split at h
          · split at h
            · split at h
              · split at h
                · rw [← Option.some.inj h]
                · rw [← Option.some.inj h]
              · rw [← Option.some.inj h]
            · split at h
              · rw [← Option.some.inj h]
              · rw [← Option.some.inj h]
          · split at h
            · rw [← Option.some.inj h]
            · have hstep : ∀ s2, WF s2 → (lookupElement s2 eid).isSome →
                  ∀ v s3, expectimaxValue s2 eid (findInterferingElements s eid sx sy gx gy
                      (decide (el.y ≥ s.height - 3)))
                    (expectimaxAdjustDepth s.elements.length maxDepth - 1) true topo gx gy
                    (decide (el.y ≥ s.height - 3)) = some (v, s3) → s3 = s2 :=
                fun s2 hwf2 hsome2 v s3 heq =>
                  expectimaxValue_state eid topo gx gy _ _ _ s2 true hwf2 hsome2 v s3 heq
              split at h
              · exact absurd h (by simp)
              · rename_i nodes s1 hrr
                have hrs : s1 = s :=
                  emRootLoop_state hstep _ s el sy _ _ _ _ hwf hel
                    (fun m hm => mem_firstMoves_empty hm) _ hrr
                subst hrs
                rw [← Option.some.inj h]
              · rename_i best nodes s1 hrr
                have hrs : s1 = s :=
                  emRootLoop_state hstep _ s el sy _ _ _ _ hwf hel
                    (fun m hm => mem_firstMoves_empty hm) _ hrr
                subst hrs
                split at h
                · rw [← Option.some.inj h]
                · rw [← Option.some.inj h]
                  exact astarTail_state hwf hel

/-! ### Concrete fixtures used by witnesses and counterexamples -/

/-- A 4×4 grid with border walls: element 0 at (1,1) with target (2,2),
element 1 at (2,1) without a target. -/
def stateA : SimState :=
  { width := 4, height := 4,
    cells :=
      [[Cell.wall, Cell.wall, Cell.wall, Cell.wall],
       [Cell.wall, Cell.occupied 0, Cell.occupied 1, Cell.wall],
       [Cell.wall, Cell.empty, Cell.empty, Cell.wall],
       [Cell.wall, Cell.wall, Cell.wall, Cell.wall]],
    elements :=
      [{ id := 0, x := 1, y := 1, target := some (2, 2) },
       { id := 1, x := 2, y := 1, target := none }] }

/-- A fixed random oracle: the 30% coin is false, `choose` takes the head. -/
def rngA : Rng := { coin := false, choose := fun l => l.headD (0, 0) }

/-- A trivial baseline pathfinder: always fails (the claims settled on
concrete states never reach the A* tail). -/
def astarNone : AStarFn := fun _ _ _ _ _ _ => (none, 0)

/-- C1: every call to `minimax_pathfind` / `expectimax_pathfind` and every
recursive branch of `minimax_value` / `expectimax_value` (pruning cuts
included) leaves the grid occupancy and all element positions exactly as
they were before it — for Expectimax, on every branch that returns (the
`NameError` of its `evaluate_state`, modelled by `none`, escapes without
returning). -/
theorem claim_C1_search_restores_state
    (s : SimState) (eid : Nat) (advs : List Nat) (fuel : Nat) (isMax : Bool)
    (alpha beta : XVal) (topo : Topology) (sx sy gx gy : Int) (brp : Bool)
    (maxDepth : Nat) (rng : Rng) (astar : AStarFn)
    (hwf : WF s) (hsome : (lookupElement s eid).isSome) :
    (minimaxValue s eid advs fuel isMax alpha beta topo gx gy brp).2 = s ∧
    (minimaxPathfind s sx sy gx gy eid topo maxDepth rng astar).2 = s ∧
    (∀ v s2, expectimaxValue s eid advs fuel isMax topo gx gy brp = some (v, s2) → s2 = s) ∧
    (∀ r, expectimaxPathfind s sx sy gx gy eid topo maxDepth rng astar = some r → r.2 = s) :=
  ⟨minimaxValue_state eid topo gx gy brp fuel s advs isMax alpha beta hwf hsome,
   minimaxPathfind_state hwf,
   fun v s2 h => expectimaxValue_state eid topo gx gy brp fuel advs s isMax hwf hsome v s2 h,
   fun r h => expectimaxPathfind_state hwf r h⟩

/-- Witness for C1 at a concrete state: the hypotheses hold and the
Minimax recursion hands back the very same state. -/
theorem claim_C1_witness :
    WF stateA ∧ (lookupElement stateA 0).isSome = true ∧
    (minimaxValue stateA 0 [1] 1 true XVal.negInf XVal.posInf
      Topology.vonNeumann 2 2 false).2 = stateA :=
  ⟨by decide, by decide,
   (claim_C1_search_restores_state stateA 0 [1] 1 true XVal.negInf XVal.posInf
      Topology.vonNeumann 1 1 2 2 false 2 rngA astarNone (by decide) (by decide)).1⟩

/-- C9: the claim (`evaluate_state` of `expectimax.py` is total) is what
the code intends, but the code reads the undefined name `start_y` in its
`is_bottom_row` branch and raises `NameError` there: with
`is_bottom_row = True` no value is produced, and the depth-limit terminal
of `expectimax_value` for a bottom-row agent dies with it. -/
theorem claim_C9_expectimax_evaluate_raises (s : SimState) (el : Element) (gx gy : Int)
    (interfering : List Nat) :
    expectimaxEvaluateState s el gx gy interfering true = none ∧
    ∀ (eid : Nat) (isMax : Bool) (topo : Topology),
      expectimaxValue s eid interfering 0 isMax topo gx gy true = none := by
  constructor
  · rfl
  · intro eid isMax topo
    rw [expectimaxValue.eq_def]
    rfl

/-- A 20×2 grid holding 20 elements, 19 of them exactly on their target
and one displaced: the success rate is exactly 95%. -/
def stateC7 : SimState :=
  { width := 20, height := 2,
    cells :=
      [(List.range 19).map (fun i => Cell.occupied i) ++ [Cell.empty],
       (List.range 19).map (fun _ => Cell.empty) ++ [Cell.occupied 19]],
    elements :=
      (List.range 19).map (fun i =>
        { id := i, x := (i : Int), y := 0, target := some ((i : Int), 0) }) ++
      [{ id := 19, x := 19, y := 1, target := some (19, 0) }] }

/-- The two components of `independentMetrics`, spelled out. -/
theorem independentMetrics_spec (s : SimState)
    (h : 0 < (s.elements.filter (fun e => e.hasTarget)).length) :
    (independentMetrics s).1 =
      ((s.elements.filter (fun e =>
        e.hasTarget && e.x = e.targetX && e.y = e.targetY)).length : ℚ) /
        ((s.elements.filter (fun e => e.hasTarget)).length : ℚ) ∧
    ((independentMetrics s).2 = true ↔ (0.95 : ℚ) < (independentMetrics s).1) := by
  constructor
  · simp only [independentMetrics]
    rw [if_pos h]
  · simp only [independentMetrics]
    rw [if_pos h]
    simp

theorem stateC7_total :
    (stateC7.elements.filter (fun e => e.hasTarget)).length = 20 := by decide

theorem stateC7_atTarget :
    (stateC7.elements.filter (fun e =>
      e.hasTarget && e.x = e.targetX && e.y = e.targetY)).length = 19 := by decide

/-- Counterexample to C7 as stated: at exactly 95% the code's strict
comparison `success_rate > 0.95` makes `success` false, while the claim
demands it be true at ≥ 95%. -/
theorem claim_C7_counterexample :
    ¬(((independentMetrics stateC7).2 = true) ↔
      ((0.95 : ℚ) ≤ (independentMetrics stateC7).1)) := by
  obtain ⟨hrate, hflag⟩ := independentMetrics_spec stateC7 (by rw [stateC7_total]; norm_num)
  rw [stateC7_total, stateC7_atTarget] at hrate
  intro hiff
  have hle : (0.95 : ℚ) ≤ (independentMetrics stateC7).1 := by rw [hrate]; norm_num
  have hlt : (0.95 : ℚ) < (independentMetrics stateC7).1 := hflag.mp (hiff.mpr hle)
  rw [hrate] at hlt
  norm_num at hlt

/-- C7 as amended: `success_rate` is the fraction of target-holding
elements standing exactly on their target, and `success` holds exactly
when that fraction is strictly greater than 0.95 (so exactly 95% is not a
success). -/
theorem claim_C7_independent_metrics (s : SimState)
    (h : 0 < (s.elements.filter (fun e => e.hasTarget)).length) :
    (independentMetrics s).1 =
      ((s.elements.filter (fun e =>
        e.hasTarget && e.x = e.targetX && e.y = e.targetY)).length : ℚ) /
        ((s.elements.filter (fun e => e.hasTarget)).length : ℚ) ∧
    ((independentMetrics s).2 = true ↔ (0.95 : ℚ) < (independentMetrics s).1) :=
  independentMetrics_spec s h

/-- Witness for C7's amended theorem at the 95% fixture: 19/20 on target,
`success_rate = 19/20`, `success = false`. -/
theorem claim_C7_witness :
    0 < (stateC7.elements.filter (fun e => e.hasTarget)).length ∧
    (independentMetrics stateC7).1 = 19 / 20 ∧ (independentMetrics stateC7).2 = false := by
  have h : 0 < (stateC7.elements.filter (fun e => e.hasTarget)).length := by
    rw [stateC7_total]; norm_num
  obtain ⟨hrate, hflag⟩ := claim_C7_independent_metrics stateC7 h
  rw [stateC7_total, stateC7_atTarget] at hrate
  refine ⟨h, by rw [hrate]; norm_num, ?_⟩
  cases hf : (independentMetrics stateC7).2 with
  | false => rfl
  | true =>
    have := hflag.mp hf
    rw [hrate] at this
    norm_num at this

/-! ### Claim C2: reservation uniqueness of one parallel round -/

/-- Destinations of the moves committed by the centralized round are
pairwise distinct (invariant: every accumulated destination is taken). -/
theorem commitCentralized_pairwise (planned : List (Nat × (Int × Int))) :
    ∀ (s : SimState) (taken : List (Int × Int)) (acc : List MoveRec),
      (∀ m ∈ acc, m.2.2 ∈ taken) →
      acc.Pairwise (fun a b => a.2.2 ≠ b.2.2) →
      (commitCentralized s planned taken acc).1.Pairwise (fun a b => a.2.2 ≠ b.2.2) := by
  induction planned with
  | nil => intro s taken acc _ hp; exact hp
  | cons p rest ih =>
    intro s taken acc hacc hp
    obtain ⟨eid, pos⟩ := p
    unfold commitCentralized
    simp only
    split
    · exact ih s taken acc hacc hp
    · rename_i hnotin
      split
      · apply ih
        · intro m hm
          rw [List.mem_append] at hm
          rcases hm with hm | hm
          · exact List.mem_append_left _ (hacc m hm)
          · simp only [List.mem_singleton] at hm
            subst hm
            exact List.mem_append_right _ (by simp)
        · rw [List.pairwise_append]
          refine ⟨hp, by simp, ?_⟩
          intro a ha b hb
          simp only [List.mem_singleton] at hb
          subst hb
          intro hc
          apply hnotin
          have hmem := hacc a ha
          rwa [hc] at hmem
      · exact ih _ taken acc hacc hp

/-- The reservation pass keeps at most one move per destination cell. -/
theorem reserveMoves_pairwise (moves : List (Nat × (Int × Int))) :
    ∀ (reservations : List (Int × Int)) (acc : List (Nat × (Int × Int))),
      (∀ m ∈ acc, m.2 ∈ reservations) →
      acc.Pairwise (fun a b => a.2 ≠ b.2) →
      (reserveMoves moves reservations acc).Pairwise (fun a b => a.2 ≠ b.2) := by
  induction moves with
  | nil => intro reservations acc _ hp; exact hp
  | cons p rest ih =>
    intro reservations acc hacc hp
    obtain ⟨eid, pos⟩ := p
    unfold reserveMoves
    split
    · exact ih reservations acc hacc hp
    · rename_i hnotin
      apply ih
      · intro m hm
        rw [List.mem_append] at hm
        rcases hm with hm | hm
        · exact List.mem_append_left _ (hacc m hm)
        · simp only [List.mem_singleton] at hm
          subst hm
          exact List.mem_append_right _ (by simp)
      · rw [List.pairwise_append]
        refine ⟨hp, by simp, ?_⟩
        intro a ha b hb
        simp only [List.mem_singleton] at hb
        subst hb
        intro hc
        apply hnotin
        have hmem := hacc a ha
        rwa [hc] at hmem

/-- Executing the reserved moves commits a sublist of them: distinctness
of destinations survives. -/
theorem executeIndependent_pairwise (validMoves : List (Nat × (Int × Int))) :
    ∀ (s : SimState) (acc : List MoveRec),
      (acc.map (fun m => m.2.2) ++ validMoves.map (fun m => m.2)).Pairwise (· ≠ ·) →
      ((executeIndependent s validMoves acc).1.map (fun m => m.2.2)).Pairwise (· ≠ ·) := by
  induction validMoves with
  | nil =>
    intro s acc hp
    simpa using hp
  | cons p rest ih =>
    intro s acc hp
    obtain ⟨eid, pos⟩ := p
    unfold executeIndependent
    simp only
    split
    · apply ih
      have : acc.map (fun m => m.2.2) ++ pos :: rest.map (fun m => m.2) =
          ((acc.map (fun m => m.2.2)) ++ [pos]) ++ rest.map (fun m => m.2) := by
        rw [List.append_cons]
      rw [List.map_append, List.map_cons]
      simp only [List.map_cons] at hp
      rw [this] at hp
      simpa using hp
    · apply ih
      refine List.Pairwise.sublist ?_ hp
      exact List.Sublist.append_left (List.sublist_cons_self _ _) _

/-- C2: within one parallel movement round — centralized (lines 222–233 of
`simulation.py`) or independent (lines 883–918) — no two committed moves
target the same cell: the first-come reservation skips later agents
wanting an already-taken cell. -/
theorem claim_C2_no_duplicate_destinations (s : SimState)
    (planned moves : List (Nat × (Int × Int))) :
    (commitCentralized s planned [] []).1.Pairwise (fun m1 m2 => m1.2.2 ≠ m2.2.2) ∧
    (executeIndependent s (reserveMoves moves [] []) []).1.Pairwise
      (fun m1 m2 => m1.2.2 ≠ m2.2.2) := by
  constructor
  · exact commitCentralized_pairwise planned s [] [] (by simp) (by simp)
  · have hres : (reserveMoves moves [] []).Pairwise (fun a b => a.2 ≠ b.2) :=
      reserveMoves_pairwise moves [] [] (by simp) (by simp)
    have hmap : ((executeIndependent s (reserveMoves moves [] []) []).1.map
        (fun m => m.2.2)).Pairwise (· ≠ ·) := by
      apply executeIndependent_pairwise
      simp only [List.map_nil, List.nil_append]
      rw [List.pairwise_map]
      exact hres
    rw [List.pairwise_map] at hmap
    exact hmap

/-! ### Claim C8: target-swap recovery -/

/-- The condition under which `findSwapInner` fires, and what it does. -/
theorem findSwapInner_spec (s : SimState) (b : Element) :
    ∀ (others : List Element) (s2 : SimState),
      findSwapInner s b others = some s2 →
      ∃ o ∈ others,
        |b.x - o.targetX| + |b.y - o.targetY| + (|o.x - b.targetX| + |o.y - b.targetY|)
          < b.distanceToTarget + o.distanceToTarget ∧
        s2 = setTarget (setTarget s b.id o.target) o.id b.target := by
  intro others
  induction others with
  | nil => intro s2 h; exact absurd h (by simp [findSwapInner])
  | cons o rest ih =>
    intro s2 h
    unfold findSwapInner at h
    split at h
    · exact ⟨o, by simp, by assumption, (Option.some.inj h).symm⟩
    · obtain ⟨o2, hmem, hlt, heq⟩ := ih s2 h
      exact ⟨o2, List.mem_cons_of_mem _ hmem, hlt, heq⟩

/-- The outer loop of the swap: a `true` answer comes from the first
blocked element with an improving partner, and performs exactly that one
swap; a `false` answer leaves the state untouched. -/
theorem findSwapPair_spec (s : SimState) (others : List Element) :
    ∀ (objs : List Element),
      ((findSwapPair s objs others).1 = false → (findSwapPair s objs others).2 = s) ∧
      ((findSwapPair s objs others).1 = true →
        ∃ b ∈ objs, ∃ o ∈ others,
          |b.x - o.targetX| + |b.y - o.targetY| + (|o.x - b.targetX| + |o.y - b.targetY|)
            < b.distanceToTarget + o.distanceToTarget ∧
          (findSwapPair s objs others).2 =
            setTarget (setTarget s b.id o.target) o.id b.target) := by
  intro objs
  induction objs with
  | nil => exact ⟨fun _ => rfl, fun h => absurd h (by simp [findSwapPair])⟩
  | cons b rest ih =>
    constructor
    · intro h
      unfold findSwapPair at h ⊢
      split at h
      · exact absurd h (by simp)
      · exact ih.1 h
    · intro h
      unfold findSwapPair at h ⊢
      split at h
      · rename_i s2 hsome
        obtain ⟨o, hmem, hlt, heq⟩ := findSwapInner_spec s b others s2 hsome
        exact ⟨b, by simp, o, hmem, hlt, heq⟩
      · obtain ⟨b2, hb2, o, hmem, hlt, heq⟩ := ih.2 h
        exact ⟨b2, List.mem_cons_of_mem _ hb2, o, hmem, hlt, heq⟩

/-- Membership facts about the blocked-objects list of the swap routine. -/
theorem mem_blockedObjs {s : SimState} {blocked : List Nat} {b : Element}
    (hb : b ∈ (blocked.filterMap (fun eid => lookupElement s eid)).filter
      (fun e => e.hasTarget)) :
    b ∈ s.elements ∧ b.id ∈ blocked ∧ b.hasTarget := by
  rw [List.mem_filter] at hb
  obtain ⟨hb1, hb2⟩ := hb
  rw [List.mem_filterMap] at hb1
  obtain ⟨eid, heid, hfind⟩ := hb1
  obtain ⟨hid, hmem⟩ := lookupElement_some hfind
  exact ⟨hmem, hid ▸ heid, hb2⟩

/-- C8: the target-swap recovery swaps the targets of one blocked agent
and one other unsettled agent only when the swap strictly reduces the sum
of their Manhattan distances to their new targets; it performs at most
one swap per invocation (a `false` answer changes nothing, a `true`
answer is exactly one pair swap); and it is invoked on the tick schedule
`step > 100 ∧ blocked ≠ ∅ ∧ step ≡ 0 (mod 15)` under von Neumann and
`mod 20` under Moore. -/
theorem claim_C8_target_swap (s : SimState) (blocked : List Nat) (step : Nat)
    (blk : Bool) :
    ((swapTargetsForBlockedElements s blocked).1 = false →
      (swapTargetsForBlockedElements s blocked).2 = s) ∧
    ((swapTargetsForBlockedElements s blocked).1 = true →
      ∃ b, b ∈ s.elements ∧ b.id ∈ blocked ∧ b.hasTarget ∧
      ∃ o, o ∈ s.elements ∧ o.id ∉ blocked ∧ o.hasTarget ∧
        ¬(o.x = o.targetX ∧ o.y = o.targetY) ∧
        |b.x - o.targetX| + |b.y - o.targetY| + (|o.x - b.targetX| + |o.y - b.targetY|)
          < b.distanceToTarget + o.distanceToTarget ∧
        (swapTargetsForBlockedElements s blocked).2 =
          setTarget (setTarget s b.id o.target) o.id b.target) ∧
    (swapInvoked step Topology.vonNeumann blk = true ↔
      (100 < step ∧ blk = true ∧ step % 15 = 0)) ∧
    (swapInvoked step Topology.moore blk = true ↔
      (100 < step ∧ blk = true ∧ step % 20 = 0)) := by
  refine ⟨?_, ?_, ?_, ?_⟩
  · intro h
    unfold swapTargetsForBlockedElements at h ⊢
    simp only at h ⊢
    split
    · rfl
    · split
      · rfl
      · split
        · rfl
        · rw [if_neg (by assumption), if_neg (by assumption), if_neg (by assumption)] at h
          exact (findSwapPair_spec s _ _).1 h
  · intro h
    unfold swapTargetsForBlockedElements at h ⊢
    simp only at h ⊢
    split at h
    · exact absurd h (by simp)
    · split at h
      · exact absurd h (by simp)
      · split at h
        · exact absurd h (by simp)
        · rw [if_neg (by assumption), if_neg (by assumption), if_neg (by assumption)]
          obtain ⟨b, hb, o, ho, hlt, heq⟩ := (findSwapPair_spec s _ _).2 h
          obtain ⟨hbmem, hbid, hbt⟩ := mem_blockedObjs hb
          rw [List.mem_filter] at ho
          obtain ⟨homem, hopred⟩ := ho
          simp only [Bool.and_eq_true, Bool.not_eq_true', decide_eq_true_eq,
            decide_eq_false_iff_not, Bool.and_eq_false_iff] at hopred
          refine ⟨b, hbmem, hbid, hbt, o, homem, ?_, ?_, ?_, hlt, heq⟩
          · intro hc
            have := hopred.1.1
            rw [List.contains_eq_any_beq] at this
            rw [List.any_eq_false] at this
            exact absurd (by simp : (o.id == o.id) = true) (this o.id hc)
          · exact hopred.1.2
          · intro hc
            have := hopred.2
            simp only [Bool.not_eq_true] at this
            rw [hc.1, hc.2] at this
            simp at this
  · unfold swapInvoked
    simp [and_assoc]
  · unfold swapInvoked
    simp [and_assoc]

/-- A 4×2 grid: blocked element 0 at (0,0) with target (3,0) and
unsettled element 1 at (3,1) with target (0,1) — swapping their targets
drops the summed distances from 6 to 2. -/
def stateC8 : SimState :=
  { width := 4, height := 2,
    cells :=
      [[Cell.occupied 0, Cell.empty, Cell.empty, Cell.empty],
       [Cell.empty, Cell.empty, Cell.empty, Cell.occupied 1]],
    elements :=
      [{ id := 0, x := 0, y := 0, target := some (3, 0) },
       { id := 1, x := 3, y := 1, target := some (0, 1) }] }

/-- Witness for C8: on `stateC8` the routine reports a swap, so the
improving blocked/other pair exists; and tick 105 under von Neumann is an
invocation tick. -/
theorem claim_C8_witness :
    (swapTargetsForBlockedElements stateC8 [0]).1 = true ∧
    (∃ b, b ∈ stateC8.elements ∧ b.id ∈ [0] ∧ b.hasTarget ∧
      ∃ o, o ∈ stateC8.elements ∧ o.id ∉ [0] ∧ o.hasTarget ∧
        ¬(o.x = o.targetX ∧ o.y = o.targetY) ∧
        |b.x - o.targetX| + |b.y - o.targetY| + (|o.x - b.targetX| + |o.y - b.targetY|)
          < b.distanceToTarget + o.distanceToTarget ∧
        (swapTargetsForBlockedElements stateC8 [0]).2 =
          setTarget (setTarget stateC8 b.id o.target) o.id b.target) ∧
    swapInvoked 105 Topology.vonNeumann true = true :=
  ⟨by decide,
   (claim_C8_target_swap stateC8 [0] 105 true).2.1 (by decide),
   (claim_C8_target_swap stateC8 [0] 105 true).2.2.1.mpr (by decide)⟩

/-! ### Claims C6 and C10: input validation and the wait-in-place result -/

/-- C6: both pathfinders return `(None, 0)` when the start or the goal is
out of bounds, or when either is a wall, and return the one-cell path
`[(start_x, start_y)]` with 1 node when start equals goal (checked in
that order); no branch of these cases raises — Expectimax's answer is a
`some`. -/
theorem claim_C6_invalid_and_trivial_inputs
    (s : SimState) (sx sy gx gy : Int) (eid : Nat) (topo : Topology)
    (maxDepth : Nat) (rng : Rng) (astar : AStarFn) :
    ((s.isValidPosition sx sy = false ∨ s.isValidPosition gx gy = false) →
      minimaxPathfind s sx sy gx gy eid topo maxDepth rng astar = ((none, 0), s) ∧
      expectimaxPathfind s sx sy gx gy eid topo maxDepth rng astar = some ((none, 0), s)) ∧
    ((s.isValidPosition sx sy = true ∧ s.isValidPosition gx gy = true ∧
        (s.isWall sx sy = true ∨ s.isWall gx gy = true)) →
      minimaxPathfind s sx sy gx gy eid topo maxDepth rng astar = ((none, 0), s) ∧
      expectimaxPathfind s sx sy gx gy eid topo maxDepth rng astar = some ((none, 0), s)) ∧
    ((s.isValidPosition sx sy = true ∧ s.isValidPosition gx gy = true ∧
        s.isWall sx sy = false ∧ s.isWall gx gy = false ∧ sx = gx ∧ sy = gy) →
      minimaxPathfind s sx sy gx gy eid topo maxDepth rng astar = ((some [(sx, sy)], 1), s) ∧
      expectimaxPathfind s sx sy gx gy eid topo maxDepth rng astar =
        some ((some [(sx, sy)], 1), s)) := by
  refine ⟨?_, ?_, ?_⟩
  · intro h
    have hc : ¬s.isValidPosition sx sy = true ∨ ¬s.isValidPosition gx gy = true := by
      rcases h with h | h
      · exact Or.inl (by simp [h])
      · exact Or.inr (by simp [h])
    constructor
    · unfold minimaxPathfind
      rw [if_pos hc]
    · unfold expectimaxPathfind
      rw [if_pos hc]
  · intro ⟨h1, h2, h3⟩
    have hc : ¬(¬s.isValidPosition sx sy = true ∨ ¬s.isValidPosition gx gy = true) := by
      simp [h1, h2]
    constructor
    · unfold minimaxPathfind
      rw [if_neg hc, if_pos h3]
    · unfold expectimaxPathfind
      rw [if_neg hc, if_pos h3]
  · intro ⟨h1, h2, h3, h4, h5, h6⟩
    have hc : ¬(¬s.isValidPosition sx sy = true ∨ ¬s.isValidPosition gx gy = true) := by
      simp [h1, h2]
    have hw : ¬(s.isWall sx sy = true ∨ s.isWall gx gy = true) := by simp [h3, h4]
    constructor
    · unfold minimaxPathfind
      rw [if_neg hc, if_neg hw, if_pos ⟨h5, h6⟩]
    · unfold expectimaxPathfind
      rw [if_neg hc, if_neg hw, if_pos ⟨h5, h6⟩]

/-- Witness for C6 on the concrete 4×4 fixture: start = goal = (1,1). -/
theorem claim_C6_witness :
    stateA.isValidPosition 1 1 = true ∧ stateA.isWall 1 1 = false ∧
    minimaxPathfind stateA 1 1 1 1 0 Topology.vonNeumann 2 rngA astarNone =
      ((some [(1, 1)], 1), stateA) :=
  ⟨by decide, by decide,
   ((claim_C6_invalid_and_trivial_inputs stateA 1 1 1 1 0 Topology.vonNeumann 2 rngA
      astarNone).2.2 ⟨by decide, by decide, by decide, by decide, rfl, rfl⟩).1⟩

/-- C10: with a valid non-wall start and goal, start ≠ goal, an existing
element, and no legal first move (every neighbor a wall or occupied),
both pathfinders return the one-cell wait-in-place path with one node
explored, and neither raises. -/
theorem claim_C10_wait_in_place
    (s : SimState) (sx sy gx gy : Int) (eid : Nat) (el : Element) (topo : Topology)
    (maxDepth : Nat) (rng : Rng) (astar : AStarFn)
    (h1 : s.isValidPosition sx sy = true) (h2 : s.isValidPosition gx gy = true)
    (h3 : s.isWall sx sy = false) (h4 : s.isWall gx gy = false)
    (h5 : ¬(sx = gx ∧ sy = gy))
    (hel : lookupElement s eid = some el)
    (hmoves : (firstMoves s sx sy topo).isEmpty = true) :
    minimaxPathfind s sx sy gx gy eid topo maxDepth rng astar = ((some [(sx, sy)], 1), s) ∧
    expectimaxPathfind s sx sy gx gy eid topo maxDepth rng astar =
      some ((some [(sx, sy)], 1), s) := by
  have hc : ¬(¬s.isValidPosition sx sy = true ∨ ¬s.isValidPosition gx gy = true) := by
    simp [h1, h2]
  have hw : ¬(s.isWall sx sy = true ∨ s.isWall gx gy = true) := by simp [h3, h4]
  constructor
  · unfold minimaxPathfind
    rw [if_neg hc, if_neg hw, if_neg h5, hel]
    simp only
    rw [if_neg (fun hcon => by
      have := hcon.2.1
      rw [hmoves] at this
      exact this rfl)]
    rw [if_neg (fun hcon => by
      have := hcon.2.1
      rw [hmoves] at this
      exact this rfl)]
    rw [if_pos hmoves]
  · unfold expectimaxPathfind
    rw [if_neg hc, if_neg hw, if_neg h5, hel]
    simp only
    rw [if_neg (fun hcon => by
      have := hcon.2.1
      rw [hmoves] at this
      exact this rfl)]
    rw [if_pos hmoves]

/-- A 4×4 grid with border walls and the agent at (1,1) surrounded: the
von Neumann neighbors (1,0) and (0,1) are walls, (2,1) and (1,2) are
occupied. -/
def stateC10 : SimState :=
  { width := 4, height := 4,
    cells :=
      [[Cell.wall, Cell.wall, Cell.wall, Cell.wall],
       [Cell.wall, Cell.occupied 0, Cell.occupied 1, Cell.wall],
       [Cell.wall, Cell.occupied 2, Cell.empty, Cell.wall],
       [Cell.wall, Cell.wall, Cell.wall, Cell.wall]],
    elements :=
      [{ id := 0, x := 1, y := 1, target := some (2, 2) },
       { id := 1, x := 2, y := 1, target := some (2, 2) },
       { id := 2, x := 1, y := 2, target := some (2, 2) }] }

/-- Witness for C10: the surrounded agent of `stateC10` waits in place
under both pathfinders. -/
theorem claim_C10_witness :
    (firstMoves stateC10 1 1 Topology.vonNeumann).isEmpty = true ∧
    minimaxPathfind stateC10 1 1 2 2 0 Topology.vonNeumann 2 rngA astarNone =
      ((some [(1, 1)], 1), stateC10) ∧
    expectimaxPathfind stateC10 1 1 2 2 0 Topology.vonNeumann 2 rngA astarNone =
      some ((some [(1, 1)], 1), stateC10) :=
  ⟨by decide,
   claim_C10_wait_in_place stateC10 1 1 2 2 0 _ Topology.vonNeumann 2 rngA astarNone
     (by decide) (by decide) (by decide) (by decide) (by decide) rfl (by decide)⟩

/-! ### Claim C5: chance-node weights and normalization -/

theorem sum_map_div {α : Type} (l : List α) (f : α → ℚ) (T : ℚ) :
    (l.map (fun x => f x / T)).sum = (l.map f).sum / T := by
  induction l with
  | nil => simp
  | cons x xs ih => simp [ih, add_div]

theorem chanceWeight_pos (s : SimState) (other : Element) (m : Int × Int) :
    0 < chanceWeight s other m := by
  unfold chanceWeight
  split
  · split <;> norm_num
  · norm_num

theorem stay_mem_chanceMoves (s : SimState) (el other : Element) (topo : Topology) :
    (other.x, other.y) ∈ chanceMoves s el other topo := by
  unfold chanceMoves
  exact List.mem_append_right _ (by simp)

theorem chanceTotalWeight_pos (s : SimState) (el other : Element) (topo : Topology) :
    0 < chanceTotalWeight s other (chanceMoves s el other topo) := by
  unfold chanceTotalWeight
  apply List.sum_pos
  · intro q hq
    rw [List.mem_map] at hq
    obtain ⟨m, _, rfl⟩ := hq
    exact chanceWeight_pos s other m
  · intro hnil
    rw [List.map_eq_nil_iff] at hnil
    have hmem : (other.x, other.y) ∈ (chanceMoves s el other topo).dedup :=
      List.mem_dedup.mpr (stay_mem_chanceMoves s el other topo)
    rw [hnil] at hmem
    exact absurd hmem (List.not_mem_nil _)

/-- C5: at a chance node, the enumerated moves are the adversary's legal
moves plus stay-in-place; stay weighs 3.0 when the adversary is in the
bottom 3 rows and 1.5 otherwise, every other move weighs 1.0; the
normalized probabilities over the distinct moves sum to exactly 1 (hence
within 1e-6 of 1.0); and the weighted-sum loop drops exactly the branches
with probability below 0.01. -/
theorem claim_C5_chance_node_weights (s : SimState) (el other : Element)
    (topo : Topology) :
    chanceMoves s el other topo =
      (s.getNeighbors other.x other.y topo).filter (fun p =>
        !s.isWall p.1 p.2 && !(p.1 = el.x && p.2 = el.y) && !s.isElement p.1 p.2)
        ++ [(other.x, other.y)] ∧
    chanceWeight s other (other.x, other.y) =
      (if other.y ≥ s.height - 3 then 3 else 3 / 2) ∧
    (∀ m : Int × Int, m ≠ (other.x, other.y) → chanceWeight s other m = 1) ∧
    ((chanceMoves s el other topo).dedup.map (fun m =>
        chanceWeight s other m / chanceTotalWeight s other (chanceMoves s el other topo))).sum
      = 1 ∧
    (∀ (stepMove : SimState → Option (XVal × SimState)) (advId : Nat)
        (m : Int × Int) (rest : List (Int × Int)) (s2 : SimState) (acc : XVal),
      chanceWeight s other m / chanceTotalWeight s other (chanceMoves s el other topo)
        < 1 / 100 →
      emChanceLoop stepMove advId (chanceWeight s other)
        (chanceTotalWeight s other (chanceMoves s el other topo)) (m :: rest) s2 acc =
      emChanceLoop stepMove advId (chanceWeight s other)
        (chanceTotalWeight s other (chanceMoves s el other topo)) rest s2 acc) := by
  refine ⟨rfl, ?_, ?_, ?_, ?_⟩
  · unfold chanceWeight
    rw [if_pos ⟨rfl, rfl⟩]
  · intro m hne
    unfold chanceWeight
    rw [if_neg (fun hc => hne (by
      obtain ⟨m1, m2⟩ := m
      simp only at hc
      rw [hc.1, hc.2]))]
  · rw [sum_map_div]
    exact div_self (ne_of_gt (chanceTotalWeight_pos s el other topo))
  · intro stepMove advId m rest s2 acc hp
    obtain ⟨mx, my⟩ := m
    rw [emChanceLoop.eq_def]
    simp only
    rw [if_pos hp]

/-- Witness for C5 at the fixture `stateC8` pair (element 0 as searched
agent, element 1 as adversary): the normalized probabilities sum to 1 and
a non-stay move weighs 1. -/
theorem claim_C5_witness :
    ((chanceMoves stateC8 { id := 0, x := 0, y := 0, target := some (3, 0) }
        { id := 1, x := 3, y := 1, target := some (0, 1) } Topology.vonNeumann).dedup.map
      (fun m => chanceWeight stateC8 { id := 1, x := 3, y := 1, target := some (0, 1) } m /
        chanceTotalWeight stateC8 { id := 1, x := 3, y := 1, target := some (0, 1) }
          (chanceMoves stateC8 { id := 0, x := 0, y := 0, target := some (3, 0) }
            { id := 1, x := 3, y := 1, target := some (0, 1) } Topology.vonNeumann))).sum
      = 1 ∧
    chanceWeight stateC8 { id := 1, x := 3, y := 1, target := some (0, 1) } (2, 1) = 1 :=
  ⟨(claim_C5_chance_node_weights stateC8 _ _ Topology.vonNeumann).2.2.2.1,
   (claim_C5_chance_node_weights stateC8
     { id := 0, x := 0, y := 0, target := some (3, 0) } _ Topology.vonNeumann).2.2.1
     (2, 1) (by decide)⟩

/-! ### Claim C3: terminal conditions of the recursive search -/

/-- C3 (amended): in both searches the depth test comes first, so at the
depth limit the node's value is the heuristic evaluation of the state —
even when the agent sits on its goal cell; the constant 1000 is returned
for a goal state only strictly before the depth limit. -/
theorem claim_C3_terminal_order (s : SimState) (eid : Nat) (advs : List Nat)
    (fuel : Nat) (isMax : Bool) (alpha beta : XVal) (topo : Topology)
    (gx gy : Int) (brp : Bool) :
    minimaxValue s eid advs 0 isMax alpha beta topo gx gy brp =
      (XVal.fin (evaluateState s ((lookupElement s eid).getD (dummyElement eid))
        gx gy advs brp), s) ∧
    expectimaxValue s eid advs 0 isMax topo gx gy brp =
      (expectimaxEvaluateState s ((lookupElement s eid).getD (dummyElement eid))
        gx gy advs brp).map (fun v => (XVal.fin v, s)) ∧
    (((lookupElement s eid).getD (dummyElement eid)).x = gx ∧
     ((lookupElement s eid).getD (dummyElement eid)).y = gy →
      minimaxValue s eid advs (fuel + 1) isMax alpha beta topo gx gy brp =
        (XVal.fin 1000, s) ∧
      expectimaxValue s eid advs (fuel + 1) isMax topo gx gy brp =
        some (XVal.fin 1000, s)) := by
  refine ⟨?_, ?_, ?_⟩
  · rw [minimaxValue.eq_def]
  · rw [expectimaxValue.eq_def]
    simp only
    cases expectimaxEvaluateState s ((lookupElement s eid).getD (dummyElement eid))
      gx gy advs brp <;> rfl
  · intro hgoal
    constructor
    · show minimaxValue s eid advs (Nat.succ fuel) isMax alpha beta topo gx gy brp = _
      rw [minimaxValue.eq_def]
      simp only
      rw [if_pos hgoal]
    · show expectimaxValue s eid advs (Nat.succ fuel) isMax topo gx gy brp = _
      rw [expectimaxValue.eq_def]
      simp only
      rw [if_pos hgoal]

/-- C3 counterexample: on `stateA` agent 0 sits on the goal cell (1, 1),
yet at the depth limit both searches return the heuristic evaluation (5
for minimax), not 1000 — the depth test precedes the goal test, refuting
"a goal state is always valued 1000". -/
theorem claim_C3_counterexample :
    ((lookupElement stateA 0).getD (dummyElement 0)).x = 1 ∧
    ((lookupElement stateA 0).getD (dummyElement 0)).y = 1 ∧
    (minimaxValue stateA 0 [] 0 true XVal.negInf XVal.posInf
        Topology.vonNeumann 1 1 false).1 = XVal.fin 5 ∧
    (minimaxValue stateA 0 [] 0 true XVal.negInf XVal.posInf
        Topology.vonNeumann 1 1 false).1 ≠ XVal.fin 1000 ∧
    (expectimaxValue stateA 0 [] 0 true Topology.vonNeumann 1 1 false).isSome = true ∧
    (expectimaxValue stateA 0 [] 0 true Topology.vonNeumann 1 1 false).map
        (fun r => r.1) ≠ some (XVal.fin 1000) := by
  have he : expectimaxValue stateA 0 [] 0 true Topology.vonNeumann 1 1 false =
      (expectimaxEvaluateState stateA ((lookupElement stateA 0).getD (dummyElement 0))
        1 1 [] false).map (fun v => (XVal.fin v, stateA)) := by
    rw [expectimaxValue.eq_def]
    simp only
    cases expectimaxEvaluateState stateA ((lookupElement stateA 0).getD (dummyElement 0))
      1 1 [] false <;> rfl
  refine ⟨by decide, by decide, by decide, by decide, ?_, ?_⟩
  · rw [he]; decide
  · rw [he]; decide

/-- Witness for C3: one step before the depth limit, agent 0 of `stateA`
standing on the goal cell (1, 1) is valued 1000 by both searches. -/
theorem claim_C3_witness :
    minimaxValue stateA 0 [] 1 true XVal.negInf XVal.posInf
      Topology.vonNeumann 1 1 false = (XVal.fin 1000, stateA) ∧
    expectimaxValue stateA 0 [] 1 true Topology.vonNeumann 1 1 false =
      some (XVal.fin 1000, stateA) :=
  (claim_C3_terminal_order stateA 0 [] 0 true XVal.negInf XVal.posInf
    Topology.vonNeumann 1 1 false).2.2 ⟨by decide, by decide⟩

/-! ### Claim C4: the bottom-row upward fast path -/

theorem headD_mem {α : Type} (l : List α) (d : α) (h : l ≠ []) : l.headD d ∈ l := by
  cases l with
  | nil => exact absurd rfl h
  | cons a t => exact List.mem_cons_self a t

theorem upward_sublist_empty (s : SimState) (sx sy : Int) (topo : Topology)
    (hfm : (firstMoves s sx sy topo).isEmpty = true) :
    (upwardMoves (firstMoves s sx sy topo) sy).isEmpty = true := by
  rw [List.isEmpty_iff] at hfm ⊢
  rw [upwardMoves, hfm]
  rfl

/-- A 5×8 grid with border walls and an extra wall at (3, 6); agent 0 at
(2, 6) is in the bottom 3 rows of the grid (height 8, so rows 5–7) but
below the hardcoded `y >= 9` threshold of `minimax_pathfind`. -/
def stateC4 : SimState :=
  { width := 5, height := 8,
    cells :=
      [[Cell.wall, Cell.wall, Cell.wall, Cell.wall, Cell.wall],
       [Cell.wall, Cell.empty, Cell.empty, Cell.empty, Cell.wall],
       [Cell.wall, Cell.empty, Cell.empty, Cell.empty, Cell.wall],
       [Cell.wall, Cell.empty, Cell.empty, Cell.empty, Cell.wall],
       [Cell.wall, Cell.empty, Cell.empty, Cell.empty, Cell.wall],
       [Cell.wall, Cell.empty, Cell.empty, Cell.empty, Cell.wall],
       [Cell.wall, Cell.empty, Cell.occupied 0, Cell.wall, Cell.wall],
       [Cell.wall, Cell.wall, Cell.wall, Cell.wall, Cell.wall]],
    elements := [{ id := 0, x := 2, y := 6, target := some (2, 1) }] }

/-- C4 counterexample: agent 0 of `stateC4` is in the bottom 3 rows of its
height-8 grid and has the legal upward move (2, 5), yet `minimax_pathfind`
(whose bottom-row test is the hardcoded `element.y >= 9`, not
`height - 3`) runs the full game-tree search over both first moves
(2 nodes explored instead of the fast path's 1), while
`expectimax_pathfind` does take the upward fast path on the same input. -/
theorem claim_C4_counterexample :
    stateC4.height - 3 ≤ ((lookupElement stateC4 0).getD (dummyElement 0)).y ∧
    ¬(upwardMoves (firstMoves stateC4 2 6 Topology.vonNeumann) 6).isEmpty ∧
    (minimaxPathfind stateC4 2 6 2 1 0 Topology.vonNeumann 1 rngA astarNone).1.2 = 2 ∧
    (minimaxPathfind stateC4 2 6 2 1 0 Topology.vonNeumann 1 rngA astarNone).1.2 ≠ 1 ∧
    expectimaxPathfind stateC4 2 6 2 1 0 Topology.vonNeumann 1 rngA astarNone =
      some ((some [(2, 6), (2, 5)], 1), stateC4) := by
  decide

/-- C4 (amended): with a legal upward first move available,
`expectimax_pathfind` takes the fast path (an upward first move, one node,
no game-tree search) exactly when the agent is in the bottom 3 rows of the
configured grid (`y >= height - 3`); `minimax_pathfind` takes its fast
path only under the hardcoded `y >= 9` and additionally requires the
vertical corridor above the agent to be free of elements (when the
corridor is blocked it falls through to the full search unless the
topology is Moore with at least two upward moves). -/
theorem claim_C4_fast_path (s : SimState) (sx sy gx gy : Int) (eid : Nat)
    (topo : Topology) (maxDepth : Nat) (rng : Rng) (astar : AStarFn) (el : Element)
    (h1 : s.isValidPosition sx sy = true) (h2 : s.isValidPosition gx gy = true)
    (h3 : s.isWall sx sy = false) (h4 : s.isWall gx gy = false)
    (h5 : ¬(sx = gx ∧ sy = gy))
    (hel : lookupElement s eid = some el)
    (hups : ¬(upwardMoves (firstMoves s sx sy topo) sy).isEmpty)
    (hchoose : ∀ l : List (Int × Int), l ≠ [] → rng.choose l ∈ l) :
    (el.y ≥ s.height - 3 →
      ∃ m ∈ upwardMoves (firstMoves s sx sy topo) sy,
        expectimaxPathfind s sx sy gx gy eid topo maxDepth rng astar =
          some ((some [(sx, sy), m], 1), s)) ∧
    (el.y ≥ 9 → verticalBlockedCheck s sx sy gy = false →
      ∃ m ∈ upwardMoves (firstMoves s sx sy topo) sy,
        minimaxPathfind s sx sy gx gy eid topo maxDepth rng astar =
          ((some [(sx, sy), m], 1), s)) := by
  have hc : ¬(¬s.isValidPosition sx sy = true ∨ ¬s.isValidPosition gx gy = true) := by
    simp [h1, h2]
  have hw : ¬(s.isWall sx sy = true ∨ s.isWall gx gy = true) := by simp [h3, h4]
  have hupsne : upwardMoves (firstMoves s sx sy topo) sy ≠ [] := by
    intro h0
    exact hups (by rw [h0]; rfl)
  have hfm : ¬(firstMoves s sx sy topo).isEmpty :=
    fun h => hups (upward_sublist_empty s sx sy topo h)
  constructor
  · intro hbot
    unfold expectimaxPathfind
    rw [if_neg hc, if_neg hw, if_neg h5, hel]
    simp only
    rw [if_pos ⟨decide_eq_true hbot, hfm, hups⟩]
    by_cases hm : topo = Topology.moore ∧
        (upwardMoves (firstMoves s sx sy topo) sy).length > 1
    · rw [if_pos hm]
      by_cases hdx : |gx - sx| > 1
      · rw [if_pos hdx]
        by_cases hdiag : ¬(diagTowardTarget (upwardMoves (firstMoves s sx sy topo) sy)
            sx (gx - sx)).isEmpty
        · rw [if_pos hdiag]
          have hdne : diagTowardTarget (upwardMoves (firstMoves s sx sy topo) sy)
              sx (gx - sx) ≠ [] := by
            intro h0
            exact hdiag (by rw [h0]; rfl)
          exact ⟨rng.choose _, (List.mem_filter.mp (hchoose _ hdne)).1, rfl⟩
        · rw [if_neg hdiag]
          exact ⟨_, headD_mem _ _ hupsne, rfl⟩
      · rw [if_neg hdx]
        exact ⟨_, headD_mem _ _ hupsne, rfl⟩
    · rw [if_neg hm]
      by_cases hsu : (sx, sy - 1) ∈ upwardMoves (firstMoves s sx sy topo) sy
      · rw [if_pos hsu]
        exact ⟨(sx, sy - 1), hsu, rfl⟩
      · rw [if_neg hsu]
        exact ⟨_, headD_mem _ _ hupsne, rfl⟩
  · intro h9 hvb
    unfold minimaxPathfind
    rw [if_neg hc, if_neg hw, if_neg h5, hel]
    simp only
    rw [if_neg (fun hcon => by
      rw [hvb] at hcon
      exact Bool.false_ne_true hcon.2.2.2.1)]
    rw [if_pos ⟨decide_eq_true h9, hfm, hups, hvb⟩]
    exact ⟨_, headD_mem _ _ hupsne, rfl⟩

/-- A 5×12 grid with border walls; agent 0 at (2, 10) with a free vertical
corridor up to the goal row: both fast-path conditions (bottom 3 rows and
the hardcoded `y >= 9`) hold here. -/
def stateC4b : SimState :=
  { width := 5, height := 12,
    cells :=
      [[Cell.wall, Cell.wall, Cell.wall, Cell.wall, Cell.wall],
       [Cell.wall, Cell.empty, Cell.empty, Cell.empty, Cell.wall],
       [Cell.wall, Cell.empty, Cell.empty, Cell.empty, Cell.wall],
       [Cell.wall, Cell.empty, Cell.empty, Cell.empty, Cell.wall],
       [Cell.wall, Cell.empty, Cell.empty, Cell.empty, Cell.wall],
       [Cell.wall, Cell.empty, Cell.empty, Cell.empty, Cell.wall],
       [Cell.wall, Cell.empty, Cell.empty, Cell.empty, Cell.wall],
       [Cell.wall, Cell.empty, Cell.empty, Cell.empty, Cell.wall],
       [Cell.wall, Cell.empty, Cell.empty, Cell.empty, Cell.wall],
       [Cell.wall, Cell.empty, Cell.empty, Cell.empty, Cell.wall],
       [Cell.wall, Cell.empty, Cell.occupied 0, Cell.empty, Cell.wall],
       [Cell.wall, Cell.wall, Cell.wall, Cell.wall, Cell.wall]],
    elements := [{ id := 0, x := 2, y := 10, target := some (2, 1) }] }

/-- Witness for C4 at `stateC4b` (height 12, agent row 10, free corridor):
both pathfinders take the upward fast path. -/
theorem claim_C4_witness :
    (∃ m ∈ upwardMoves (firstMoves stateC4b 2 10 Topology.vonNeumann) 10,
      expectimaxPathfind stateC4b 2 10 2 1 0 Topology.vonNeumann 2 rngA astarNone =
        some ((some [(2, 10), m], 1), stateC4b)) ∧
    (∃ m ∈ upwardMoves (firstMoves stateC4b 2 10 Topology.vonNeumann) 10,
      minimaxPathfind stateC4b 2 10 2 1 0 Topology.vonNeumann 2 rngA astarNone =
        ((some [(2, 10), m], 1), stateC4b)) := by
  have h := claim_C4_fast_path stateC4b 2 10 2 1 0 Topology.vonNeumann 2 rngA astarNone
    { id := 0, x := 2, y := 10, target := some (2, 1) }
    (by decide) (by decide) (by decide) (by decide) (by decide) (by decide) (by decide)
    (fun l hl => headD_mem l (0, 0) hl)
  exact ⟨h.1 (by decide), h.2 (by decide) (by decide)⟩

end RotF
